import Mathlib

/-!
# v2sub: the run of main.go as an effect trace

The program is one function, main (main.go lines 43 to 273).  It is embedded as a
function from the values the outside world hands to it (flags, cached config,
keyboard input, the results of file writes and service restarts) to the ordered
list of external effects it performs and the way the process ends.

Two types are declared outside main.go and are kept as type parameters:
the raw port value carried by a node (argument of parsePort) is any type P,
and the fields of the engine config other than OutboundConfigs are any type K.
-/

namespace V2sub

/-! ## Constants (main.go lines 15 to 24) -/

def v2subConfig : String := "/etc/v2sub.json"
def v2rayConfig : String := "/etc/v2ray.json"
def trojanConfig : String := "/etc/trojan.json"

/-- The text of waitingForSub.String(), for 10 * time.Second. -/
def waitingForSub : String := "10s"
/-- The text of waitingForPing.String(), for 5 * time.Second. -/
def waitingForPing : String := "5s"
def version : String := "1.4"

/-- Modelled from the spec: the constant vmessProtocol is declared outside main.go;
the spec names the protocol vmess. -/
def vmessProtocol : String := "vmess"
/-- Modelled from the spec: the constant ssProtocol is declared outside main.go;
the spec names the protocol shadowsocks. -/
def ssProtocol : String := "shadowsocks"
/-- Modelled from the spec: the constant trojanProtocol is declared outside main.go;
the spec names the protocol trojan. -/
def trojanProtocol : String := "trojan"
/-- Modelled from the spec: the constant socksProtocol is declared outside main.go;
it is the protocol of the outbound that targets the local relay listener. -/
def socksProtocol : String := "socks"

/-! ## Data model -/

/-- The flags struct (main.go lines 26 to 41), after flag.Parse. -/
structure Flags where
  sub : Bool
  sort : Bool
  version : Bool
  ping : Bool
  quick : Bool
  global : Bool
  wan : Bool
  url : String
  v2rayConfig : String
  socksPort : Nat
  httpPort : Nat

/-- The fields of types.Node that main.go reads. -/
structure Node (P : Type) where
  Name : String
  Protocol : String
  Addr : String
  Port : P
  UID : String
  /-- The field Type of types.Node (Type is reserved in Lean). -/
  Type_ : String
  Net : String
  TLS : String
  Ping : Int

/-- The slice types.Nodes. -/
abbrev Nodes (P : Type) := List (Node P)

structure StreamSetting where
  Network : String
  Security : String
deriving DecidableEq

/-- One element of VNextConfig.Users (main.go lines 163 to 165). -/
structure VNextUser where
  ID : String
deriving DecidableEq

structure VNextConfig where
  Address : String
  Port : Int
  Users : List VNextUser
deriving DecidableEq

structure VnextOutboundSetting where
  VNext : List VNextConfig
deriving DecidableEq

structure SSServerConfig where
  Address : String
  Port : Int
  Method : String
  Password : String
deriving DecidableEq

structure SSOutboundSetting where
  Servers : List SSServerConfig
deriving DecidableEq

structure SocksServerConfig where
  Address : String
  Port : Int
deriving DecidableEq

structure SocksOutboundSetting where
  Servers : List SocksServerConfig
deriving DecidableEq

/-- The value held by the variable outboundSetting (main.go line 154) once a case
of the switch has assigned it. -/
inductive OutboundSetting where
  | vnext (s : VnextOutboundSetting)
  | ss (s : SSOutboundSetting)
  | socks (s : SocksOutboundSetting)
deriving DecidableEq

/-- A json.RawMessage: either the encoding json.Marshal gives for an outbound
setting (main.go lines 220 to 223), or JSON text that comes from elsewhere
(the settings of the default outbound entries). -/
inductive RawMessage where
  | marshalled (s : OutboundSetting)
  | text (json : String)
deriving DecidableEq

/-- The fields of types.OutboundConfig that main.go sets (lines 225 to 230); the two
pointer fields may be nil in the default entries. -/
structure OutboundConfig where
  Protocol : String
  Settings : Option RawMessage
  Tag : String
  StreamSettings : Option StreamSetting
deriving DecidableEq

/-- The engine config types.V2rayConfig: OutboundConfigs, and every other field
bundled as one value of type K. -/
structure V2rayConfig (K : Type) where
  OutboundConfigs : List OutboundConfig
  other : K

/-- The persisted document types.Config. -/
structure Config (P K : Type) where
  SubUrl : String
  Nodes : Nodes P
  V2rayConfig : V2rayConfig K

/-- The relay config, the type of template.TrojanTemplate, with the fields main.go
reads or writes (lines 188 to 191 and 209 to 210). -/
structure Trojan where
  Password : List String
  RemoteAddr : String
  RemotePort : Int
  LocalAddr : String
  LocalPort : Int
deriving DecidableEq

/-- The bytes handed to WriteFile: the json.Marshal encoding of one of three values. -/
inductive FileData (P K : Type) where
  | trojan (t : Trojan)
  | config (c : Config P K)
  | v2ray (c : V2rayConfig K)

/-- One external effect of a run, in program order. -/
inductive Effect (P K : Type) where
  /-- fmt.Print, fmt.Printf and fmt.Println, with the text written. -/
  | print (s : String)
  /-- fmt.Scan. -/
  | scan
  /-- The call GetSub(url, subCh) (line 103). -/
  | getSub (url : String)
  /-- The call ParseNodes(data) (line 113). -/
  | parseNodes (data : List String)
  /-- The call ping.Ping(nodes, waitingForPing) (line 128). -/
  | ping (nodes : Nodes P)
  /-- The call sort.Sort(nodes) (line 131). -/
  | sort (nodes : Nodes P)
  /-- The call printAsTable(nodes) (line 136). -/
  | printAsTable (nodes : Nodes P)
  /-- The call WriteFile(path, data). -/
  | writeFile (path : String) (data : FileData P K)
  /-- The call exec.Command(name, args...).Run(). -/
  | exec (cmd : List String)
  /-- The call ExitWithMsg(msg, code). -/
  | exitWithMsg (msg : String) (code : Int)
  /-- The call allDone(cfg) (line 272). -/
  | allDone (cfg : Config P K)

/-- What the select statement of lines 105 to 120 receives. -/
inductive SubResult where
  /-- The timer time.After(waitingForSub) fires first. -/
  | timeout
  /-- A value arrives on subCh; none is the nil slice. -/
  | data (d : Option (List String))

/-- Code declared outside main.go, taken as parameters. -/
structure Ext (P K : Type) where
  parsePort : P → Int
  TrojanTemplate : Trojan
  DefaultOutboundConfigs : List OutboundConfig
  ParseNodes : List String → Nodes P × List String
  /-- The node list after ping.Ping has written the Ping fields. -/
  Ping : Nodes P → Nodes P
  /-- The node list after sort.Sort. -/
  SortNodes : Nodes P → Nodes P
  setGlobalProxy : V2rayConfig K → V2rayConfig K
  setRuleProxy : V2rayConfig K → V2rayConfig K
  listenOnWan : V2rayConfig K → V2rayConfig K
  listenOnLocal : V2rayConfig K → V2rayConfig K
  listenOnPort : Flags → V2rayConfig K → V2rayConfig K

/-- Everything the outside world hands to one run.  A field of type Option String
that ends in Err is the error a call returns: none is a nil error. -/
structure World (P K : Type) where
  flags : Flags
  /-- Result of FileExist(v2subConfig) (line 73). -/
  fileExist : Bool
  /-- Result of ReadConfig(v2subConfig) (line 76). -/
  readConfig : Config P K
  readConfigErr : Option String
  /-- Value of cfg.SubUrl after fmt.Scan(&cfg.SubUrl) (line 94). -/
  scanSubUrl : String
  /-- Outcome of the fetch of a url (lines 102 to 110). -/
  getSub : String → SubResult
  /-- The k-th fmt.Scan(&nodeIndex) (line 143); none when nothing could be read. -/
  input : Nat → Option Int
  marshalTrojanErr : Option String
  writeTrojanErr : Option String
  restartTrojanErr : Option String
  marshalSettingErr : Option String
  marshalCfgErr : Option String
  writeV2subErr : Option String
  marshalV2rayErr : Option String
  writeV2rayErr : Option String
  restartV2rayErr : Option String

/-- How a stage of main hands over control. -/
inductive Step (α : Type) where
  /-- Control reaches the next statement, with the values computed so far. -/
  | next (a : α)
  /-- The process is ended by ExitWithMsg with this code. -/
  | exited (code : Int)
  /-- A return statement of main was executed. -/
  | returned
  /-- A slice was indexed out of range (run-time panic). -/
  | crashed

/-- How the process ends. -/
inductive Outcome where
  | exited (code : Int)
  | returned
  | crashed
deriving DecidableEq

/-- The exit status of the process: the code given to os.Exit, 0 when main returns,
2 for a run-time panic. -/
def Outcome.status : Outcome → Int
  | .exited code => code
  | .returned => 0
  | .crashed => 2

/-- Modelled from the spec: ExitWithMsg is declared outside main.go.  It prints msg and
ends the process with the given status; here it is the effect of the call. -/
def ExitWithMsg {P K α : Type} (msg : String) (code : Int) : List (Effect P K) × Step α :=
  ([Effect.exitWithMsg msg code], Step.exited code)

/-- The two restart commands (lines 201 and 266). -/
def restartTrojan : List String := ["systemctl", "restart", "trojan.service"]
def restartV2ray : List String := ["systemctl", "restart", "v2ray.service"]

/-! ## The stages of main -/

/-- Lines 81 to 124: the node list of this run, and cfg as the closure leaves it. -/
def getNodes {P K : Type} (x : Ext P K) (w : World P K) (cfg : Config P K) :
    List (Effect P K) × Step (Config P K × Nodes P) :=
  if !w.flags.sub && w.flags.url == "" && cfg.Nodes.length != 0 then
    ([Effect.print "使用缓存的订阅信息, 如需刷新请指定 -sub\n"], Step.next (cfg, cfg.Nodes))
  else
    let cfg1 : Config P K := if w.flags.url != "" then { cfg with SubUrl := w.flags.url } else cfg
    let asked : List (Effect P K) × Config P K :=
      if cfg1.SubUrl == "" then
        ([Effect.print "输入订阅地址:", Effect.scan], { cfg1 with SubUrl := w.scanSubUrl })
      else
        ([Effect.print ("订阅地址: " ++ cfg1.SubUrl ++ "\n")], cfg1)
    let cfg2 := asked.2
    let t := asked.1 ++ [Effect.print "开始解析订阅信息...\n", Effect.getSub cfg2.SubUrl]
    match w.getSub cfg2.SubUrl with
    | SubResult.timeout =>
        let r : List (Effect P K) × Step (Config P K × Nodes P) :=
          ExitWithMsg (waitingForSub ++ " 后仍未获取到订阅信息, 请检查订阅地址和网络状况") 0
        (t ++ r.1, r.2)
    | SubResult.data none =>
        let r : List (Effect P K) × Step (Config P K × Nodes P) :=
          ExitWithMsg "base64 解码错误, 请核实订阅编码" 0
        (t ++ r.1, r.2)
    | SubResult.data (some data) =>
        let parsed := x.ParseNodes data
        let report : List (Effect P K) :=
          if parsed.2.length != 0 then
            Effect.print "无法解析下列节点:\n" :: parsed.2.map (fun e => Effect.print (e ++ "\n"))
          else []
        (t ++ Effect.parseNodes data :: report,
          Step.next ({ cfg2 with Nodes := parsed.1 }, parsed.1))

/-- Lines 126 to 133: the node list after the optional probe and sort.  The slice
is shared with cfg.Nodes, so the caller stores the result there too. -/
def probe {P K : Type} (x : Ext P K) (ping sort : Bool) (nodes : Nodes P) :
    List (Effect P K) × Nodes P :=
  if ping then
    let pinged := x.Ping nodes
    let t : List (Effect P K) :=
      [Effect.print ("正在测试延迟, 等待 " ++ waitingForPing ++ "...\n"), Effect.ping nodes]
    if sort then (t ++ [Effect.sort pinged], x.SortNodes pinged) else (t, pinged)
  else ([], nodes)

/-- Lines 138 to 151: the selection loop.  The argument k counts the entries read so
far; fuel bounds the number of iterations, and none means the loop is still running
when the fuel is spent. -/
def selectNode {P K : Type} (nodes : Nodes P) (input : Nat → Option Int) :
    Nat → Nat → Option (List (Effect P K) × Step (Node P))
  | 0, _ => none
  | fuel + 1, k =>
    let nodeIndex : Int := (input k).getD 0
    if nodeIndex < 0 ∨ nodeIndex ≥ (nodes.length : Int) then
      (selectNode nodes input fuel (k + 1)).map
        (fun r => (Effect.print "输入节点序号:" :: Effect.scan :: Effect.print "没有此节点\n" :: r.1, r.2))
    else
      match nodes.get? nodeIndex.toNat with
      | none => some ([Effect.print "输入节点序号:", Effect.scan], Step.crashed)
      | some node =>
        some ([Effect.print "输入节点序号:", Effect.scan,
               Effect.print ("[" ++ node.Name ++ "] Ping: " ++ toString node.Ping ++ "ms\n")],
              Step.next node)

/-- Lines 153 to 218: the switch on node.Protocol.  The result is the triple
(v2rayOutboundProtocol, outboundSetting, streamSetting). -/
def dispatch {P K : Type} (x : Ext P K) (w : World P K) (node : Node P) :
    List (Effect P K) × Step (String × OutboundSetting × StreamSetting) :=
  if node.Protocol = vmessProtocol then
    ([], Step.next (vmessProtocol,
      OutboundSetting.vnext { VNext := [{ Address := node.Addr, Port := x.parsePort node.Port,
                                          Users := [{ ID := node.UID }] }] },
      { Network := node.Net, Security := node.TLS }))
  else if node.Protocol = ssProtocol then
    ([], Step.next (ssProtocol,
      OutboundSetting.ss { Servers := [{ Address := node.Addr, Port := x.parsePort node.Port,
                                         Method := node.Type_, Password := node.UID }] },
      { Network := "tcp", Security := "none" }))
  else if node.Protocol = trojanProtocol then
    let trojan : Trojan :=
      { x.TrojanTemplate with
        Password := [node.UID], RemoteAddr := node.Addr, RemotePort := x.parsePort node.Port }
    match w.marshalTrojanErr with
    | some err => ExitWithMsg err 1
    | none =>
      let written : List (Effect P K) := [Effect.writeFile trojanConfig (FileData.trojan trojan)]
      match w.writeTrojanErr with
      | some err =>
        (written ++ [Effect.print ("写入 trojan 配置文件错误: " ++ err ++ "\n")], Step.returned)
      | none =>
        let restarted : List (Effect P K) :=
          written ++ [Effect.print "重启 trojan 服务...\n", Effect.exec restartTrojan]
        match w.restartTrojanErr with
        | some err => (restarted ++ [Effect.print ("重启失败: " ++ err ++ "\n")], Step.returned)
        | none =>
          (restarted ++ [Effect.print "trojan 启动完成\n"],
            Step.next (socksProtocol,
              OutboundSetting.socks
                { Servers := [{ Address := trojan.LocalAddr, Port := trojan.LocalPort }] },
              { Network := "tcp", Security := "none" }))
  else ExitWithMsg ("unexpected protocol: " ++ node.Protocol) 1

/-- The outbound descriptor built at lines 225 to 230. -/
def descriptor (p : String × OutboundSetting × StreamSetting) : OutboundConfig :=
  { Protocol := p.1, Settings := some (RawMessage.marshalled p.2.1), Tag := "proxy",
    StreamSettings := some p.2.2 }

/-- Lines 220 to 232: cfg.V2rayConfig.OutboundConfigs is assigned. -/
def compose {P K : Type} (x : Ext P K) (w : World P K) (cfg : Config P K)
    (p : String × OutboundSetting × StreamSetting) : List (Effect P K) × Step (Config P K) :=
  match w.marshalSettingErr with
  | some err => ExitWithMsg err 1
  | none =>
    ([], Step.next { cfg with V2rayConfig :=
      { cfg.V2rayConfig with OutboundConfigs := descriptor p :: x.DefaultOutboundConfigs } })

/-- Lines 153 to 232: the config synthesizer, the switch followed by the assignment. -/
def synthesize {P K : Type} (x : Ext P K) (w : World P K) (cfg : Config P K) (node : Node P) :
    List (Effect P K) × Step (Config P K) :=
  match dispatch x w node with
  | (t, Step.next p) => ((t ++ (compose x w cfg p).1), (compose x w cfg p).2)
  | (t, Step.exited code) => (t, Step.exited code)
  | (t, Step.returned) => (t, Step.returned)
  | (t, Step.crashed) => (t, Step.crashed)

/-- Lines 234 to 247: the routing and listener toggles. -/
def toggles {P K : Type} (x : Ext P K) (flags : Flags) (v : V2rayConfig K) : V2rayConfig K :=
  let v1 := if flags.global then x.setGlobalProxy v else x.setRuleProxy v
  let v2 := if flags.wan then x.listenOnWan v1 else x.listenOnLocal v1
  x.listenOnPort flags v2

/-- Lines 249 to 272: both config files are written, the engine is restarted, and
allDone is called. -/
def persist {P K : Type} (w : World P K) (cfg : Config P K) : List (Effect P K) × Outcome :=
  match w.marshalCfgErr with
  | some err => ([Effect.exitWithMsg err 1], Outcome.exited 1)
  | none =>
    let t1 : List (Effect P K) := [Effect.writeFile v2subConfig (FileData.config cfg)]
    match w.writeV2subErr with
    | some err => (t1 ++ [Effect.print ("写入 v2sub 配置文件错误: " ++ err ++ "\n")], Outcome.returned)
    | none =>
      match w.marshalV2rayErr with
      | some err => (t1 ++ [Effect.exitWithMsg err 1], Outcome.exited 1)
      | none =>
        let t2 : List (Effect P K) :=
          t1 ++ [Effect.writeFile w.flags.v2rayConfig (FileData.v2ray cfg.V2rayConfig)]
        match w.writeV2rayErr with
        | some err => (t2 ++ [Effect.print ("写入 v2ray 配置文件错误: " ++ err ++ "\n")], Outcome.returned)
        | none =>
          let t3 : List (Effect P K) :=
            t2 ++ [Effect.print "重启 v2ray 服务...\n", Effect.exec restartV2ray]
          match w.restartV2rayErr with
          | some err => (t3 ++ [Effect.print ("重启失败: " ++ err ++ "\n")], Outcome.returned)
          | none => (t3 ++ [Effect.allDone cfg], Outcome.returned)

/-- Lines 153 to 273: everything main does once a node is selected. -/
def configure {P K : Type} (x : Ext P K) (w : World P K) (flags : Flags) (cfg : Config P K)
    (node : Node P) : List (Effect P K) × Outcome :=
  match synthesize x w cfg node with
  | (t, Step.next cfg1) =>
    let cfg2 : Config P K := { cfg1 with V2rayConfig := toggles x flags cfg1.V2rayConfig }
    (t ++ (persist w cfg2).1, (persist w cfg2).2)
  | (t, Step.exited code) => (t, Outcome.exited code)
  | (t, Step.returned) => (t, Outcome.returned)
  | (t, Step.crashed) => (t, Outcome.crashed)

/-- Lines 68 to 70: the flags after a quick switch has turned the probe off. -/
def effectiveFlags (flags : Flags) : Flags :=
  if flags.quick then { flags with ping := false } else flags

/-- Lines 72 to 79: the cached config is read; a missing file and a read error are
reported and the run goes on. -/
def startup {P K : Type} (w : World P K) : List (Effect P K) :=
  (if w.fileExist then [] else [Effect.print ("首次运行 v2sub, 将创建 " ++ v2subConfig ++ "\n")]) ++
  (match w.readConfigErr with
   | some err => [Effect.print ("v2sub 配置文件损坏: " ++ err ++ "\n")]
   | none => [])

/-- Lines 72 to 151: from reading the cached config to the selected node.  The
result is the config with the node list of this run, and the node. -/
def prelude {P K : Type} (x : Ext P K) (w : World P K) (fuel : Nat) :
    Option (List (Effect P K) × Step (Config P K × Node P)) :=
  let flags := effectiveFlags w.flags
  let t0 : List (Effect P K) := startup w
  match getNodes x w w.readConfig with
  | (t1, Step.next (cfg, nodes)) =>
    let probed := probe x flags.ping flags.sort nodes
    let cfg1 : Config P K := { cfg with Nodes := probed.2 }
    let t2 : List (Effect P K) := t0 ++ t1 ++ probed.1 ++ [Effect.printAsTable probed.2]
    match selectNode probed.2 w.input fuel 0 with
    | none => none
    | some (t3, Step.next node) => some (t2 ++ t3, Step.next (cfg1, node))
    | some (t3, Step.exited code) => some (t2 ++ t3, Step.exited code)
    | some (t3, Step.returned) => some (t2 ++ t3, Step.returned)
    | some (t3, Step.crashed) => some (t2 ++ t3, Step.crashed)
  | (t1, Step.exited code) => some (t0 ++ t1, Step.exited code)
  | (t1, Step.returned) => some (t0 ++ t1, Step.returned)
  | (t1, Step.crashed) => some (t0 ++ t1, Step.crashed)

/-- Lines 43 to 273: one run of the program.  The result is the effect trace and
the way the process ends; none means the selection loop is still running when the
fuel is spent. -/
def main {P K : Type} (x : Ext P K) (w : World P K) (fuel : Nat) :
    Option (List (Effect P K) × Outcome) :=
  if w.flags.version then
    some ([Effect.print ("v2sub v" ++ version ++ "\n")], Outcome.returned)
  else
    match prelude x w fuel with
    | none => none
    | some (t, Step.next (cfg, node)) =>
      some (t ++ (configure x w (effectiveFlags w.flags) cfg node).1,
            (configure x w (effectiveFlags w.flags) cfg node).2)
    | some (t, Step.exited code) => some (t, Outcome.exited code)
    | some (t, Step.returned) => some (t, Outcome.returned)
    | some (t, Step.crashed) => some (t, Outcome.crashed)

/-- The relay config built at lines 188 to 191. -/
def relayConfig {P K : Type} (x : Ext P K) (node : Node P) : Trojan :=
  { x.TrojanTemplate with
    Password := [node.UID], RemoteAddr := node.Addr, RemotePort := x.parsePort node.Port }

/-- The value the trojan case hands to the assignment of lines 220 to 232. -/
def relayTarget {P K : Type} (x : Ext P K) : String × OutboundSetting × StreamSetting :=
  (socksProtocol,
    OutboundSetting.socks
      { Servers := [{ Address := x.TrojanTemplate.LocalAddr, Port := x.TrojanTemplate.LocalPort }] },
    { Network := "tcp", Security := "none" })

/-- The config of a run after the assignment of lines 224 to 231, for the triple p. -/
def withOutbound {P K : Type} (x : Ext P K) (cfg : Config P K)
    (p : String × OutboundSetting × StreamSetting) : Config P K :=
  { cfg with V2rayConfig :=
      { cfg.V2rayConfig with OutboundConfigs := descriptor p :: x.DefaultOutboundConfigs } }

/-- The value of nodeIndex after the k-th fmt.Scan(&nodeIndex): the variable is
declared afresh in every iteration (line 142), so it is 0 when nothing was read. -/
def entered (input : Nat → Option Int) (k : Nat) : Int := (input k).getD 0

/-- The condition of line 144 negated: the index is one of the list. -/
def inRange {P : Type} (nodes : Nodes P) (i : Int) : Prop := 0 ≤ i ∧ i < (nodes.length : Int)

/-- The effects of n iterations of the selection loop that reject the entry. -/
def rejected {P K : Type} : Nat → List (Effect P K)
  | 0 => []
  | n + 1 => Effect.print "输入节点序号:" :: Effect.scan :: Effect.print "没有此节点\n" :: rejected n

/-- The effects of the iteration that accepts the entry and returns the node. -/
def accepted {P K : Type} (node : Node P) : List (Effect P K) :=
  [Effect.print "输入节点序号:", Effect.scan,
   Effect.print ("[" ++ node.Name ++ "] Ping: " ++ toString node.Ping ++ "ms\n")]

/-- The condition of line 83: the cached node list is used. -/
def useCache {P K : Type} (w : World P K) (cfg : Config P K) : Prop :=
  w.flags.sub = false ∧ w.flags.url = "" ∧ cfg.Nodes ≠ []

/-- The value of cfg.SubUrl when GetSub is called (lines 88 to 97): the url flag when
it is not empty, else the stored SubUrl, else what was typed in. -/
def fetchUrl {P K : Type} (w : World P K) (cfg : Config P K) : String :=
  if w.flags.url ≠ "" then w.flags.url
  else if cfg.SubUrl = "" then w.scanSubUrl
  else cfg.SubUrl

/-- The effects of lines 92 to 99, before GetSub is called. -/
def asking {P K : Type} (w : World P K) (cfg : Config P K) : List (Effect P K) :=
  if w.flags.url = "" ∧ cfg.SubUrl = "" then
    [Effect.print "输入订阅地址:", Effect.scan, Effect.print "开始解析订阅信息...\n"]
  else
    [Effect.print ("订阅地址: " ++ fetchUrl w cfg ++ "\n"), Effect.print "开始解析订阅信息...\n"]

/-- The report of lines 114 to 119 on the entries the parser could not read. -/
def unparsedReport {P K : Type} (failed : List String) : List (Effect P K) :=
  if failed.length != 0 then
    Effect.print "无法解析下列节点:\n" :: failed.map (fun e => Effect.print (e ++ "\n"))
  else []

/-- Whether an effect is a call of WriteFile. -/
def Effect.isWrite {P K : Type} : Effect P K → Bool
  | Effect.writeFile _ _ => true
  | _ => false

/-- Whether an effect runs an external command. -/
def Effect.isExec {P K : Type} : Effect P K → Bool
  | Effect.exec _ => true
  | _ => false

/-- A trace in which no file is written and no command is run. -/
def quiet {P K : Type} (t : List (Effect P K)) : Prop :=
  ∀ e ∈ t, e.isWrite = false ∧ e.isExec = false

/-- The config handed to the persisting stage: the outbounds of lines 224 to 231,
then the toggles of lines 234 to 247. -/
def finalConfig {P K : Type} (x : Ext P K) (flags : Flags) (cfg : Config P K)
    (p : String × OutboundSetting × StreamSetting) : Config P K :=
  { withOutbound x cfg p with V2rayConfig := toggles x flags (withOutbound x cfg p).V2rayConfig }

/-- Whether an effect belongs to the relay: a write of a relay config, or the
restart of the trojan service. -/
def Effect.isRelay {P K : Type} : Effect P K → Bool
  | Effect.writeFile _ (FileData.trojan _) => true
  | Effect.exec cmd => decide (cmd = restartTrojan)
  | _ => false

/-- Whether an effect belongs to the primary engine: a write of the v2ray config, or
the restart of the v2ray service. -/
def Effect.isEngine {P K : Type} : Effect P K → Bool
  | Effect.writeFile _ (FileData.v2ray _) => true
  | Effect.exec cmd => decide (cmd = restartV2ray)
  | _ => false

/-- Whether an effect is a write of the v2sub config. -/
def Effect.isCache {P K : Type} : Effect P K → Bool
  | Effect.writeFile _ (FileData.config _) => true
  | _ => false

/-! ## Sample values -/

/-- A sample of the code declared outside main.go: ports are carried as naturals,
the relay listens on 127.0.0.1:1080, and there are two default outbound entries. -/
def sampleExt : Ext Nat Unit :=
  { parsePort := fun n => (n : Int)
    TrojanTemplate :=
      { Password := [], RemoteAddr := "", RemotePort := 0, LocalAddr := "127.0.0.1", LocalPort := 1080 }
    DefaultOutboundConfigs :=
      [{ Protocol := "freedom", Settings := some (RawMessage.text "{}"), Tag := "direct",
         StreamSettings := none },
       { Protocol := "blackhole", Settings := some (RawMessage.text "{}"), Tag := "block",
         StreamSettings := none }]
    ParseNodes := fun _ => ([], [])
    Ping := fun nodes => nodes
    SortNodes := fun nodes => nodes
    setGlobalProxy := fun v => v
    setRuleProxy := fun v => v
    listenOnWan := fun v => v
    listenOnLocal := fun v => v
    listenOnPort := fun _ v => v }

/-- The node of the end-to-end scenario of the spec. -/
def vmessNode : Node Nat :=
  { Name := "a", Protocol := "vmess", Addr := "1.2.3.4", Port := 443, UID := "abc", Type_ := "none",
    Net := "ws", TLS := "tls", Ping := 0 }

def ssNode : Node Nat :=
  { Name := "b", Protocol := "shadowsocks", Addr := "5.6.7.8", Port := 8388, UID := "pw",
    Type_ := "aes-256-gcm", Net := "ws", TLS := "tls", Ping := 0 }

def trojanNode : Node Nat :=
  { Name := "c", Protocol := "trojan", Addr := "9.9.9.9", Port := 443, UID := "secret", Type_ := "",
    Net := "", TLS := "", Ping := 0 }

/-- A trojan node that sits at the address and port of the relay listener. -/
def loopbackNode : Node Nat :=
  { Name := "d", Protocol := "trojan", Addr := "127.0.0.1", Port := 1080, UID := "secret",
    Type_ := "", Net := "", TLS := "", Ping := 0 }

def fooNode : Node Nat :=
  { Name := "e", Protocol := "foo", Addr := "9.9.9.9", Port := 1, UID := "", Type_ := "",
    Net := "", TLS := "", Ping := 0 }

def sampleFlags : Flags :=
  { sub := false, sort := false, version := false, ping := false, quick := false, global := false,
    wan := false, url := "", v2rayConfig := "/etc/v2ray.json", socksPort := 0, httpPort := 0 }

def sampleConfig (nodes : Nodes Nat) : Config Nat Unit :=
  { SubUrl := "http://sub", Nodes := nodes, V2rayConfig := { OutboundConfigs := [], other := () } }

/-- A world in which the cache holds the given nodes, the first one is picked, and
every call succeeds. -/
def sampleWorld (nodes : Nodes Nat) : World Nat Unit :=
  { flags := sampleFlags
    fileExist := true
    readConfig := sampleConfig nodes
    readConfigErr := none
    scanSubUrl := ""
    getSub := fun _ => SubResult.timeout
    input := fun _ => some 0
    marshalTrojanErr := none
    writeTrojanErr := none
    restartTrojanErr := none
    marshalSettingErr := none
    marshalCfgErr := none
    writeV2subErr := none
    marshalV2rayErr := none
    writeV2rayErr := none
    restartV2rayErr := none }

/-- The effects of a run of the sample world up to the selection of its first node:
the cache is announced, the table is printed, and entry 0 is accepted. -/
def samplePrelude (node : Node Nat) : List (Effect Nat Unit) :=
  [Effect.print "使用缓存的订阅信息, 如需刷新请指定 -sub\n", Effect.printAsTable [node],
   Effect.print "输入节点序号:", Effect.scan,
   Effect.print ("[" ++ node.Name ++ "] Ping: " ++ toString node.Ping ++ "ms\n")]

/-- The sample world with the trojan node cached, in which the write of the relay
config fails. -/
def relayWriteFails : World Nat Unit :=
  { sampleWorld [trojanNode] with writeTrojanErr := some "disk full" }

/-- The sample world with the vmess node cached, in which the write of the v2sub
config fails. -/
def cacheWriteFails : World Nat Unit :=
  { sampleWorld [vmessNode] with writeV2subErr := some "disk full" }

/-- Three entries typed at the selection prompt: 5, then -1, then nothing readable. -/
def sampleInput : Nat → Option Int
  | 0 => some 5
  | 1 => some (-1)
  | _ => none

/-- A sample parser result: one node read, one entry that could not be read. -/
def parsingExt : Ext Nat Unit :=
  { sampleExt with ParseNodes := fun _ => ([vmessNode], ["foo://bar"]) }

/-- The sample world run with a url flag, the fetch returning two entries. -/
def refreshWorld : World Nat Unit :=
  { sampleWorld [ssNode] with
    flags := { sampleFlags with url := "http://new" }
    getSub := fun _ => SubResult.data (some ["vmess://x", "foo://bar"]) }

/-! ## The config synthesizer -/

theorem dispatch_vmess {P K : Type} (x : Ext P K) (w : World P K) (node : Node P)
    (h : node.Protocol = vmessProtocol) :
    dispatch x w node = ([], Step.next (vmessProtocol,
      OutboundSetting.vnext { VNext := [{ Address := node.Addr, Port := x.parsePort node.Port,
                                          Users := [{ ID := node.UID }] }] },
      { Network := node.Net, Security := node.TLS })) := by
  simp [dispatch, h]

theorem dispatch_ss {P K : Type} (x : Ext P K) (w : World P K) (node : Node P)
    (h : node.Protocol = ssProtocol) :
    dispatch x w node = ([], Step.next (ssProtocol,
      OutboundSetting.ss { Servers := [{ Address := node.Addr, Port := x.parsePort node.Port,
                                         Method := node.Type_, Password := node.UID }] },
      { Network := "tcp", Security := "none" })) := by
  have h1 : ssProtocol ≠ vmessProtocol := by decide
  simp [dispatch, h, h1]

theorem dispatch_trojan {P K : Type} (x : Ext P K) (w : World P K) (node : Node P)
    (h : node.Protocol = trojanProtocol) :
    dispatch x w node =
      match w.marshalTrojanErr with
      | some err => ([Effect.exitWithMsg err 1], Step.exited 1)
      | none =>
        match w.writeTrojanErr with
        | some err =>
          ([Effect.writeFile trojanConfig (FileData.trojan (relayConfig x node)),
            Effect.print ("写入 trojan 配置文件错误: " ++ err ++ "\n")], Step.returned)
        | none =>
          match w.restartTrojanErr with
          | some err =>
            ([Effect.writeFile trojanConfig (FileData.trojan (relayConfig x node)),
              Effect.print "重启 trojan 服务...\n", Effect.exec restartTrojan,
              Effect.print ("重启失败: " ++ err ++ "\n")], Step.returned)
          | none =>
            ([Effect.writeFile trojanConfig (FileData.trojan (relayConfig x node)),
              Effect.print "重启 trojan 服务...\n", Effect.exec restartTrojan,
              Effect.print "trojan 启动完成\n"], Step.next (relayTarget x)) := by
  have h1 : trojanProtocol ≠ vmessProtocol := by decide
  have h2 : trojanProtocol ≠ ssProtocol := by decide
  simp only [dispatch, h, h1, h2, if_false, if_true]
  cases w.marshalTrojanErr <;> cases w.writeTrojanErr <;> cases w.restartTrojanErr <;>
    simp [ExitWithMsg, relayConfig, relayTarget]

theorem dispatch_other {P K : Type} (x : Ext P K) (w : World P K) (node : Node P)
    (h1 : node.Protocol ≠ vmessProtocol) (h2 : node.Protocol ≠ ssProtocol)
    (h3 : node.Protocol ≠ trojanProtocol) :
    dispatch x w node =
      ([Effect.exitWithMsg ("unexpected protocol: " ++ node.Protocol) 1], Step.exited 1) := by
  simp [dispatch, h1, h2, h3, ExitWithMsg]

theorem synthesize_next {P K : Type} (x : Ext P K) (w : World P K) (cfg : Config P K)
    (node : Node P) (t : List (Effect P K)) (p : String × OutboundSetting × StreamSetting)
    (h : dispatch x w node = (t, Step.next p)) :
    synthesize x w cfg node =
      match w.marshalSettingErr with
      | some err => (t ++ [Effect.exitWithMsg err 1], Step.exited 1)
      | none => (t, Step.next (withOutbound x cfg p)) := by
  simp only [synthesize, h, compose]
  cases w.marshalSettingErr <;> simp [ExitWithMsg, withOutbound]

/-- C1: for a vmess node the switch yields, with no effect, a descriptor with Protocol
vmess, Tag proxy, exactly one VNext entry (Address the node Addr, Port parsePort of the
node Port, one user with ID the node UID) and StreamSettings copied from Net and TLS;
when the setting is marshalled without error this descriptor is the first outbound
of the engine config. -/
theorem vmess_descriptor {P K : Type} (x : Ext P K) (w : World P K) (cfg : Config P K)
    (node : Node P) (h : node.Protocol = vmessProtocol) :
    ∃ p, dispatch x w node = ([], Step.next p) ∧
      (descriptor p).Protocol = vmessProtocol ∧
      (descriptor p).Tag = "proxy" ∧
      (descriptor p).Settings = some (RawMessage.marshalled (OutboundSetting.vnext
        { VNext := [{ Address := node.Addr, Port := x.parsePort node.Port,
                      Users := [{ ID := node.UID }] }] })) ∧
      (descriptor p).StreamSettings = some { Network := node.Net, Security := node.TLS } ∧
      (w.marshalSettingErr = none →
        synthesize x w cfg node = ([], Step.next (withOutbound x cfg p)) ∧
        (withOutbound x cfg p).V2rayConfig.OutboundConfigs.head? = some (descriptor p)) := by
  refine ⟨_, dispatch_vmess x w node h, rfl, rfl, rfl, rfl, ?_⟩
  intro hm
  rw [synthesize_next x w cfg node _ _ (dispatch_vmess x w node h), hm]
  exact ⟨rfl, rfl⟩

/-- C1, the scenario of the spec: Addr 1.2.3.4, Port 443, UID abc, Net ws, TLS tls. -/
theorem vmess_descriptor_witness :
    vmessNode.Protocol = vmessProtocol ∧
    ∃ p, dispatch sampleExt (sampleWorld [vmessNode]) vmessNode = ([], Step.next p) ∧
      (descriptor p).Protocol = vmessProtocol ∧
      (descriptor p).Tag = "proxy" ∧
      (descriptor p).Settings = some (RawMessage.marshalled (OutboundSetting.vnext
        { VNext := [{ Address := "1.2.3.4", Port := 443, Users := [{ ID := "abc" }] }] })) ∧
      (descriptor p).StreamSettings = some { Network := "ws", Security := "tls" } ∧
      ((sampleWorld [vmessNode]).marshalSettingErr = none →
        synthesize sampleExt (sampleWorld [vmessNode]) (sampleConfig [vmessNode]) vmessNode =
          ([], Step.next (withOutbound sampleExt (sampleConfig [vmessNode]) p)) ∧
        (withOutbound sampleExt (sampleConfig [vmessNode]) p).V2rayConfig.OutboundConfigs.head? =
          some (descriptor p)) :=
  ⟨rfl, vmess_descriptor sampleExt (sampleWorld [vmessNode]) (sampleConfig [vmessNode]) vmessNode rfl⟩

/-- C6: for a shadowsocks node the switch yields, with no effect, a descriptor with
Protocol shadowsocks, exactly one server (Address the node Addr, Port parsePort of the
node Port, Method the node Type, Password the node UID) and StreamSettings tcp and none,
in which the node Net and TLS do not occur; when the setting is marshalled without
error this descriptor is the first outbound of the engine config. -/
theorem ss_descriptor {P K : Type} (x : Ext P K) (w : World P K) (cfg : Config P K)
    (node : Node P) (h : node.Protocol = ssProtocol) :
    ∃ p, dispatch x w node = ([], Step.next p) ∧
      (descriptor p).Protocol = ssProtocol ∧
      (descriptor p).Tag = "proxy" ∧
      (descriptor p).Settings = some (RawMessage.marshalled (OutboundSetting.ss
        { Servers := [{ Address := node.Addr, Port := x.parsePort node.Port,
                        Method := node.Type_, Password := node.UID }] })) ∧
      (descriptor p).StreamSettings = some { Network := "tcp", Security := "none" } ∧
      (∀ net tls, dispatch x w { node with Net := net, TLS := tls } = ([], Step.next p)) ∧
      (w.marshalSettingErr = none →
        synthesize x w cfg node = ([], Step.next (withOutbound x cfg p)) ∧
        (withOutbound x cfg p).V2rayConfig.OutboundConfigs.head? = some (descriptor p)) := by
  refine ⟨_, dispatch_ss x w node h, rfl, rfl, rfl, rfl, ?_, ?_⟩
  · intro net tls
    exact dispatch_ss x w { node with Net := net, TLS := tls } h
  · intro hm
    rw [synthesize_next x w cfg node _ _ (dispatch_ss x w node h), hm]
    exact ⟨rfl, rfl⟩

/-- C6 at a node whose Net is ws and whose TLS is tls: the stream is still tcp and none. -/
theorem ss_descriptor_witness :
    ssNode.Protocol = ssProtocol ∧
    ∃ p, dispatch sampleExt (sampleWorld [ssNode]) ssNode = ([], Step.next p) ∧
      (descriptor p).Protocol = ssProtocol ∧
      (descriptor p).Tag = "proxy" ∧
      (descriptor p).Settings = some (RawMessage.marshalled (OutboundSetting.ss
        { Servers := [{ Address := "5.6.7.8", Port := 8388,
                        Method := "aes-256-gcm", Password := "pw" }] })) ∧
      (descriptor p).StreamSettings = some { Network := "tcp", Security := "none" } ∧
      (∀ net tls, dispatch sampleExt (sampleWorld [ssNode]) { ssNode with Net := net, TLS := tls } =
        ([], Step.next p)) ∧
      ((sampleWorld [ssNode]).marshalSettingErr = none →
        synthesize sampleExt (sampleWorld [ssNode]) (sampleConfig [ssNode]) ssNode =
          ([], Step.next (withOutbound sampleExt (sampleConfig [ssNode]) p)) ∧
        (withOutbound sampleExt (sampleConfig [ssNode]) p).V2rayConfig.OutboundConfigs.head? =
          some (descriptor p)) :=
  ⟨rfl, ss_descriptor sampleExt (sampleWorld [ssNode]) (sampleConfig [ssNode]) ssNode rfl⟩

/-- C2 (amended): for a trojan node, once the relay config is marshalled the first
effect writes to the trojan config file a relay config with Password the node UID alone,
RemoteAddr the node Addr, RemotePort parsePort of the node Port, and LocalAddr and
LocalPort those of the template; whenever the switch hands over a descriptor, it has
exactly one server, at that LocalAddr and LocalPort, with StreamSettings tcp and none,
and it is the same descriptor for every other trojan node (the target is taken from
the template, not from the node); and the switch does hand one over when the marshal,
the write and the restart succeed. -/
theorem trojan_relay {P K : Type} (x : Ext P K) (w : World P K) (node : Node P)
    (h : node.Protocol = trojanProtocol) :
    (w.marshalTrojanErr = none →
      ∃ r, (dispatch x w node).1.head? = some (Effect.writeFile trojanConfig (FileData.trojan r)) ∧
        r.Password = [node.UID] ∧ r.RemoteAddr = node.Addr ∧
        r.RemotePort = x.parsePort node.Port ∧
        r.LocalAddr = x.TrojanTemplate.LocalAddr ∧ r.LocalPort = x.TrojanTemplate.LocalPort) ∧
    (∀ t p, dispatch x w node = (t, Step.next p) →
      (descriptor p).Settings = some (RawMessage.marshalled (OutboundSetting.socks
        { Servers := [{ Address := x.TrojanTemplate.LocalAddr,
                        Port := x.TrojanTemplate.LocalPort }] })) ∧
      (descriptor p).StreamSettings = some { Network := "tcp", Security := "none" } ∧
      (descriptor p).Tag = "proxy" ∧
      ∀ other : Node P, other.Protocol = trojanProtocol →
        (dispatch x w other).2 = Step.next p) ∧
    (w.marshalTrojanErr = none → w.writeTrojanErr = none → w.restartTrojanErr = none →
      ∃ t p, dispatch x w node = (t, Step.next p)) := by
  refine ⟨?_, ?_, ?_⟩
  · intro hm
    refine ⟨relayConfig x node, ?_, rfl, rfl, rfl, rfl, rfl⟩
    rw [dispatch_trojan x w node h, hm]
    cases w.writeTrojanErr <;> cases w.restartTrojanErr <;> rfl
  · intro t p hd
    rw [dispatch_trojan x w node h] at hd
    have key : w.marshalTrojanErr = none ∧ w.writeTrojanErr = none ∧
        w.restartTrojanErr = none ∧ p = relayTarget x := by
      cases hm : w.marshalTrojanErr <;> cases hw : w.writeTrojanErr <;>
        cases hr : w.restartTrojanErr <;> simp [hm, hw, hr] at hd ⊢
      exact hd.2.symm
    obtain ⟨hm, hw, hr, hp⟩ := key
    subst hp
    refine ⟨rfl, rfl, rfl, ?_⟩
    intro other ho
    rw [dispatch_trojan x w other ho, hm, hw, hr]
  · intro hm hw hr
    rw [dispatch_trojan x w node h, hm, hw, hr]
    exact ⟨_, _, rfl⟩

/-- C2 (amended) at a trojan node at 9.9.9.9:443 with a relay listening on 127.0.0.1:1080. -/
theorem trojan_relay_witness :
    trojanNode.Protocol = trojanProtocol ∧
    ∃ t p, dispatch sampleExt (sampleWorld [trojanNode]) trojanNode = (t, Step.next p) ∧
      t.head? = some (Effect.writeFile trojanConfig (FileData.trojan
        { Password := ["secret"], RemoteAddr := "9.9.9.9", RemotePort := 443,
          LocalAddr := "127.0.0.1", LocalPort := 1080 })) ∧
      (descriptor p).Settings = some (RawMessage.marshalled (OutboundSetting.socks
        { Servers := [{ Address := "127.0.0.1", Port := 1080 }] })) :=
  ⟨rfl, by
    obtain ⟨t, p, hd⟩ :=
      (trojan_relay sampleExt (sampleWorld [trojanNode]) trojanNode rfl).2.2 rfl rfl rfl
    refine ⟨t, p, hd, ?_, ?_⟩
    · obtain ⟨r, hr, h1, h2, h3, h4, h5⟩ :=
        (trojan_relay sampleExt (sampleWorld [trojanNode]) trojanNode rfl).1 rfl
      rw [hd] at hr
      rw [hr]
      cases r
      simp only at h1 h2 h3 h4 h5
      subst h1 h2 h3 h4 h5
      rfl
    · exact ((trojan_relay sampleExt (sampleWorld [trojanNode]) trojanNode rfl).2.1 t p hd).1⟩

/-- C2 as stated fails: for a trojan node whose own address and port are those of the
relay listener (127.0.0.1:1080), the one server of the outbound descriptor has the
Addr and the parsed Port of the node. -/
theorem trojan_target_is_node_addr :
    loopbackNode.Protocol = trojanProtocol ∧
    ∃ t p, dispatch sampleExt (sampleWorld [loopbackNode]) loopbackNode = (t, Step.next p) ∧
      (descriptor p).Settings = some (RawMessage.marshalled (OutboundSetting.socks
        { Servers := [{ Address := loopbackNode.Addr,
                        Port := sampleExt.parsePort loopbackNode.Port }] })) :=
  ⟨rfl, _, _, rfl, rfl⟩

theorem trojan_target_collision {P K : Type} (x : Ext P K) (w : World P K) (node : Node P)
    (h : node.Protocol = trojanProtocol) (ha : node.Addr = x.TrojanTemplate.LocalAddr)
    (hp : x.parsePort node.Port = x.TrojanTemplate.LocalPort)
    (t : List (Effect P K)) (p : String × OutboundSetting × StreamSetting)
    (hd : dispatch x w node = (t, Step.next p)) :
    (descriptor p).Settings = some (RawMessage.marshalled (OutboundSetting.socks
      { Servers := [{ Address := node.Addr, Port := x.parsePort node.Port }] })) := by
  rw [dispatch_trojan x w node h] at hd
  cases hm : w.marshalTrojanErr <;> cases hw : w.writeTrojanErr <;>
    cases hr : w.restartTrojanErr <;> simp [hm, hw, hr] at hd
  rw [← hd.2, ha, hp]
  rfl

/-- C5: for a node of a supported protocol, when no marshal fails and, for trojan, the
relay write and restart succeed, the synthesizer hands over a config; and whenever it
hands one over, its OutboundConfigs are the synthesized descriptor followed by the
default entries in their order: the first entry has the Protocol, the marshalled
setting and the StreamSettings that the switch produced for this node (spelled out for
each of the three protocols) and Tag proxy, the length is one plus the number of
defaults, the entries from 1 on are the defaults, and the list is the same whatever
config was read from the cache. -/
theorem outbounds_rebuilt {P K : Type} (x : Ext P K) (w : World P K) (cfg : Config P K)
    (node : Node P)
    (hp : node.Protocol = vmessProtocol ∨ node.Protocol = ssProtocol ∨
      node.Protocol = trojanProtocol) :
    (w.marshalSettingErr = none →
      (node.Protocol = trojanProtocol → w.marshalTrojanErr = none ∧ w.writeTrojanErr = none ∧
        w.restartTrojanErr = none) →
      ∃ t cfg1, synthesize x w cfg node = (t, Step.next cfg1)) ∧
    (∀ t cfg1, synthesize x w cfg node = (t, Step.next cfg1) →
      (∃ p, dispatch x w node = (t, Step.next p) ∧
        cfg1.V2rayConfig.OutboundConfigs =
          { Protocol := p.1, Settings := some (RawMessage.marshalled p.2.1), Tag := "proxy",
            StreamSettings := some p.2.2 } :: x.DefaultOutboundConfigs ∧
        (node.Protocol = vmessProtocol →
          p = (vmessProtocol,
            OutboundSetting.vnext
              { VNext := [{ Address := node.Addr, Port := x.parsePort node.Port,
                            Users := [{ ID := node.UID }] }] },
            { Network := node.Net, Security := node.TLS })) ∧
        (node.Protocol = ssProtocol →
          p = (ssProtocol,
            OutboundSetting.ss
              { Servers := [{ Address := node.Addr, Port := x.parsePort node.Port,
                              Method := node.Type_, Password := node.UID }] },
            { Network := "tcp", Security := "none" })) ∧
        (node.Protocol = trojanProtocol →
          p = (socksProtocol,
            OutboundSetting.socks
              { Servers := [{ Address := x.TrojanTemplate.LocalAddr,
                              Port := x.TrojanTemplate.LocalPort }] },
            { Network := "tcp", Security := "none" }))) ∧
      (∃ d, cfg1.V2rayConfig.OutboundConfigs = d :: x.DefaultOutboundConfigs ∧ d.Tag = "proxy") ∧
      cfg1.V2rayConfig.OutboundConfigs.length = 1 + x.DefaultOutboundConfigs.length ∧
      cfg1.V2rayConfig.OutboundConfigs.drop 1 = x.DefaultOutboundConfigs ∧
      ∀ cached : Config P K, ∃ cfg2, synthesize x w cached node = (t, Step.next cfg2) ∧
        cfg2.V2rayConfig.OutboundConfigs = cfg1.V2rayConfig.OutboundConfigs) := by
  have shape : ∀ c : Config P K, ∀ t c1, synthesize x w c node = (t, Step.next c1) →
      ∃ p, dispatch x w node = (t, Step.next p) ∧ w.marshalSettingErr = none ∧
        c1 = withOutbound x c p := by
    intro c t c1 hs
    rcases hd : dispatch x w node with ⟨t0, st⟩
    cases st with
    | next p =>
      rw [synthesize_next x w c node t0 p hd] at hs
      cases hm : w.marshalSettingErr with
      | some err => simp [hm] at hs
      | none =>
        simp only [hm, Prod.mk.injEq, Step.next.injEq] at hs
        exact ⟨p, by rw [hs.1], rfl, hs.2.symm⟩
    | exited code => simp [synthesize, hd] at hs
    | returned => simp [synthesize, hd] at hs
    | crashed => simp [synthesize, hd] at hs
  refine ⟨?_, ?_⟩
  · intro hm ht
    rcases hp with h | h | h
    · exact ⟨_, _, by rw [synthesize_next x w cfg node _ _ (dispatch_vmess x w node h), hm]⟩
    · exact ⟨_, _, by rw [synthesize_next x w cfg node _ _ (dispatch_ss x w node h), hm]⟩
    · obtain ⟨h1, h2, h3⟩ := ht h
      have hd := dispatch_trojan x w node h
      rw [h1, h2, h3] at hd
      exact ⟨_, _, by rw [synthesize_next x w cfg node _ _ hd, hm]⟩
  · intro t cfg1 hs
    obtain ⟨p, hd, hm, hc⟩ := shape cfg t cfg1 hs
    subst hc
    refine ⟨⟨p, hd, rfl, ?_, ?_, ?_⟩, ⟨descriptor p, rfl, rfl⟩, ?_, rfl, ?_⟩
    · intro h
      have hd2 := hd
      rw [dispatch_vmess x w node h] at hd2
      simp only [Prod.mk.injEq, Step.next.injEq] at hd2
      exact hd2.2.symm
    · intro h
      have hd2 := hd
      rw [dispatch_ss x w node h] at hd2
      simp only [Prod.mk.injEq, Step.next.injEq] at hd2
      exact hd2.2.symm
    · intro h
      have hd2 := hd
      rw [dispatch_trojan x w node h] at hd2
      have key : p = relayTarget x := by
        cases h1 : w.marshalTrojanErr <;> cases h2 : w.writeTrojanErr <;>
          cases h3 : w.restartTrojanErr <;> simp [h1, h2, h3] at hd2
        exact hd2.2.symm
      rw [key]
      rfl
    · simp [withOutbound, Nat.add_comm]
    · intro cached
      exact ⟨withOutbound x cached p, by rw [synthesize_next x w cached node t p hd, hm], rfl⟩

/-- C5 at the vmess node of the spec scenario, with two default outbound entries. -/
theorem outbounds_rebuilt_witness :
    (vmessNode.Protocol = vmessProtocol ∨ vmessNode.Protocol = ssProtocol ∨
      vmessNode.Protocol = trojanProtocol) ∧
    ∃ t cfg1, synthesize sampleExt (sampleWorld [vmessNode]) (sampleConfig [vmessNode]) vmessNode =
        (t, Step.next cfg1) ∧
      cfg1.V2rayConfig.OutboundConfigs =
        { Protocol := "vmess",
          Settings := some (RawMessage.marshalled (OutboundSetting.vnext
            { VNext := [{ Address := "1.2.3.4", Port := 443, Users := [{ ID := "abc" }] }] })),
          Tag := "proxy",
          StreamSettings := some { Network := "ws", Security := "tls" } } ::
        sampleExt.DefaultOutboundConfigs ∧
      cfg1.V2rayConfig.OutboundConfigs.length = 3 ∧
      cfg1.V2rayConfig.OutboundConfigs.drop 1 = sampleExt.DefaultOutboundConfigs :=
  ⟨Or.inl rfl, by
    have h := outbounds_rebuilt sampleExt (sampleWorld [vmessNode]) (sampleConfig [vmessNode])
      vmessNode (Or.inl rfl)
    obtain ⟨t, cfg1, hs⟩ := h.1 rfl (fun hne => absurd hne (by decide))
    obtain ⟨⟨p, _, ho, hvm, _, _⟩, _, hl, hdr, _⟩ := h.2 t cfg1 hs
    refine ⟨t, cfg1, hs, ?_, hl, hdr⟩
    rw [ho, hvm rfl]
    rfl⟩

/-! ## The selection loop -/

theorem selectNode_reject {P K : Type} (nodes : Nodes P) (input : Nat → Option Int)
    (fuel k : Nat) (h : ¬ inRange nodes (entered input k)) :
    selectNode nodes input (fuel + 1) k =
      (selectNode nodes input fuel (k + 1)).map
        (fun r => ((Effect.print "输入节点序号:" :: Effect.scan :: Effect.print "没有此节点\n" :: r.1 :
          List (Effect P K)), r.2)) := by
  have h1 : (input k).getD 0 < 0 ∨ (input k).getD 0 ≥ (nodes.length : Int) := by
    simp only [inRange, entered] at h
    omega
  simp [selectNode, h1]

theorem selectNode_accept {P K : Type} (nodes : Nodes P) (input : Nat → Option Int)
    (fuel k : Nat) (h : inRange nodes (entered input k)) :
    ∃ node, nodes.get? (entered input k).toNat = some node ∧
      selectNode nodes input (fuel + 1) k = some ((accepted node : List (Effect P K)), Step.next node) := by
  obtain ⟨h0, h1⟩ := h
  have hlt : (entered input k).toNat < nodes.length := by omega
  have hnot : ¬ ((input k).getD 0 < 0 ∨ (input k).getD 0 ≥ (nodes.length : Int)) := by
    simp only [entered] at h0 h1
    omega
  refine ⟨nodes.get ⟨_, hlt⟩, List.get?_eq_get hlt, ?_⟩
  have hg : nodes.get? ((input k).getD 0).toNat = some (nodes.get ⟨_, hlt⟩) := List.get?_eq_get hlt
  simp only [selectNode, hnot, if_false]
  rw [hg]
  rfl

theorem selectNode_first {P K : Type} (nodes : Nodes P) (input : Nat → Option Int) :
    ∀ (n start fuel : Nat), (∀ j, j < n → ¬ inRange nodes (entered input (start + j))) →
      inRange nodes (entered input (start + n)) → n < fuel →
      ∃ node, nodes.get? (entered input (start + n)).toNat = some node ∧
        selectNode nodes input fuel start =
          some ((rejected n ++ accepted node : List (Effect P K)), Step.next node) := by
  intro n
  induction n with
  | zero =>
    intro start fuel _ hin hf
    obtain ⟨f, rfl⟩ : ∃ f, fuel = f + 1 := ⟨fuel - 1, by omega⟩
    simpa [rejected] using selectNode_accept nodes input f start hin
  | succ n ih =>
    intro start fuel hrej hin hf
    obtain ⟨f, rfl⟩ : ∃ f, fuel = f + 1 := ⟨fuel - 1, by omega⟩
    have h0 : ¬ inRange nodes (entered input start) := by simpa using hrej 0 (by omega)
    have hrej1 : ∀ j, j < n → ¬ inRange nodes (entered input (start + 1 + j)) := by
      intro j hj
      have := hrej (j + 1) (by omega)
      rwa [show start + (j + 1) = start + 1 + j by omega] at this
    have hin1 : inRange nodes (entered input (start + 1 + n)) := by
      rwa [show start + (n + 1) = start + 1 + n by omega] at hin
    obtain ⟨node, hg, hs⟩ := ih (start + 1) f hrej1 hin1 (by omega)
    refine ⟨node, by rwa [show start + (n + 1) = start + 1 + n by omega], ?_⟩
    rw [selectNode_reject nodes input f start h0, hs]
    rfl

theorem selectNode_never_crashes {P K : Type} (nodes : Nodes P) (input : Nat → Option Int) :
    ∀ (fuel k : Nat) (t : List (Effect P K)) (s : Step (Node P)),
      selectNode nodes input fuel k = some (t, s) → ∃ node i, s = Step.next node ∧
        nodes.get? i = some node := by
  intro fuel
  induction fuel with
  | zero => intro k t s h; simp [selectNode] at h
  | succ f ih =>
    intro k t s h
    by_cases hin : inRange nodes (entered input k)
    · obtain ⟨node, hg, hs⟩ := selectNode_accept (K := K) nodes input f k hin
      rw [hs] at h
      simp only [Option.some.injEq, Prod.mk.injEq] at h
      exact ⟨node, _, h.2.symm, hg⟩
    · rw [selectNode_reject nodes input f k hin] at h
      cases hr : selectNode (K := K) nodes input f (k + 1) with
      | none => simp [hr] at h
      | some r =>
        simp only [hr, Option.map_some', Option.some.injEq, Prod.mk.injEq] at h
        obtain ⟨node, i, hn, hg⟩ := ih (k + 1) r.1 r.2 hr
        exact ⟨node, i, by rw [← h.2, hn], hg⟩

theorem selectNode_all_rejected {P K : Type} (nodes : Nodes P) (input : Nat → Option Int)
    (h : ∀ k, ¬ inRange nodes (entered input k)) :
    ∀ (fuel k : Nat), selectNode (K := K) nodes input fuel k = none := by
  intro fuel
  induction fuel with
  | zero => intro k; rfl
  | succ f ih =>
    intro k
    rw [selectNode_reject nodes input f k (h k), ih (k + 1)]
    rfl

/-- C9: when the first entry in range is the n-th one (an unreadable entry counting as
0), the selection loop, given more than n iterations, returns the node at that index
after rejecting the n earlier entries with the no-such-node message; whatever the
entries, a result of the loop is a node of the list and never an out-of-range access;
and for the empty list the loop yields no result within any number of iterations. -/
theorem selectNode_spec {P K : Type} (nodes : Nodes P) (input : Nat → Option Int) :
    (∀ n fuel, (∀ j, j < n → ¬ inRange nodes (entered input j)) →
      inRange nodes (entered input n) → n < fuel →
      ∃ node, nodes.get? (entered input n).toNat = some node ∧
        selectNode nodes input fuel 0 =
          some ((rejected n ++ accepted node : List (Effect P K)), Step.next node)) ∧
    (∀ fuel (t : List (Effect P K)) s, selectNode nodes input fuel 0 = some (t, s) →
      s ≠ Step.crashed ∧ ∃ node i, s = Step.next node ∧ nodes.get? i = some node) ∧
    (nodes = [] → ∀ fuel, selectNode (K := K) nodes input fuel 0 = none) := by
  refine ⟨?_, ?_, ?_⟩
  · intro n fuel hrej hin hf
    have := selectNode_first (K := K) nodes input n 0 fuel
      (by simpa using hrej) (by simpa using hin) hf
    simpa using this
  · intro fuel t s h
    obtain ⟨node, i, hs, hg⟩ := selectNode_never_crashes nodes input fuel 0 t s h
    exact ⟨by rw [hs]; exact fun hc => Step.noConfusion hc, node, i, hs, hg⟩
  · intro he fuel
    apply selectNode_all_rejected
    intro k hk
    rw [he] at hk
    obtain ⟨h0, h1⟩ := hk
    simp at h1
    omega

/-- C9 at a list of two nodes and the entries 5, -1 and an unreadable one: the first
two are rejected, the third counts as 0 and the first node is returned. -/
theorem selectNode_spec_witness :
    (∀ j, j < 2 → ¬ inRange [vmessNode, ssNode] (entered sampleInput j)) ∧
    inRange [vmessNode, ssNode] (entered sampleInput 2) ∧
    selectNode [vmessNode, ssNode] sampleInput 3 0 =
      some ((rejected 2 ++ accepted vmessNode : List (Effect Nat Unit)), Step.next vmessNode) := by
  have h1 : ∀ j, j < 2 → ¬ inRange [vmessNode, ssNode] (entered sampleInput j) := by
    intro j hj
    interval_cases j <;> simp [inRange, entered, sampleInput]
  have h2 : inRange [vmessNode, ssNode] (entered sampleInput 2) := by
    simp [inRange, entered, sampleInput]
  obtain ⟨node, hg, hs⟩ :=
    (selectNode_spec (K := Unit) [vmessNode, ssNode] sampleInput).1 2 3 h1 h2 (by decide)
  have hn : node = vmessNode := by
    simp [entered, sampleInput] at hg
    exact hg.symm
  rw [hn] at hs
  exact ⟨h1, h2, hs⟩

/-! ## The node list of a run -/

theorem getNodes_cached {P K : Type} (x : Ext P K) (w : World P K) (cfg : Config P K)
    (h : useCache w cfg) :
    getNodes x w cfg =
      ([Effect.print "使用缓存的订阅信息, 如需刷新请指定 -sub\n"], Step.next (cfg, cfg.Nodes)) := by
  obtain ⟨h1, h2, h3⟩ := h
  have h4 : cfg.Nodes.length ≠ 0 := fun hl => h3 (List.length_eq_zero.mp hl)
  simp [getNodes, h1, h2, h4]

theorem getNodes_fresh {P K : Type} (x : Ext P K) (w : World P K) (cfg : Config P K)
    (h : ¬ useCache w cfg) :
    getNodes x w cfg =
      match w.getSub (fetchUrl w cfg) with
      | SubResult.timeout =>
        (asking w cfg ++ [Effect.getSub (fetchUrl w cfg),
          Effect.exitWithMsg (waitingForSub ++ " 后仍未获取到订阅信息, 请检查订阅地址和网络状况") 0],
          Step.exited 0)
      | SubResult.data none =>
        (asking w cfg ++ [Effect.getSub (fetchUrl w cfg),
          Effect.exitWithMsg "base64 解码错误, 请核实订阅编码" 0], Step.exited 0)
      | SubResult.data (some data) =>
        (asking w cfg ++ Effect.getSub (fetchUrl w cfg) :: Effect.parseNodes data ::
            unparsedReport (x.ParseNodes data).2,
          Step.next ({ cfg with SubUrl := fetchUrl w cfg, Nodes := (x.ParseNodes data).1 },
            (x.ParseNodes data).1)) := by
  have hc : (!w.flags.sub && w.flags.url == "" && cfg.Nodes.length != 0) = false := by
    by_contra hne
    simp only [Bool.not_eq_false, Bool.and_eq_true, Bool.not_eq_true', beq_iff_eq, bne_iff_ne,
      ne_eq] at hne
    exact h ⟨hne.1.1, hne.1.2, fun hn => hne.2 (by rw [hn]; rfl)⟩
  unfold getNodes
  rw [hc]
  by_cases hu : w.flags.url = ""
  · by_cases hs : cfg.SubUrl = ""
    · cases hg : w.getSub w.scanSubUrl with
      | timeout => simp [hu, hs, hg, fetchUrl, asking, ExitWithMsg]
      | data d => cases d <;> simp [hu, hs, hg, fetchUrl, asking, unparsedReport, ExitWithMsg]
    · cases hg : w.getSub cfg.SubUrl with
      | timeout => simp [hu, hs, hg, fetchUrl, asking, ExitWithMsg]
      | data d => cases d <;> simp [hu, hs, hg, fetchUrl, asking, unparsedReport, ExitWithMsg]
  · cases hg : w.getSub w.flags.url with
    | timeout => simp [hu, hg, fetchUrl, asking, ExitWithMsg]
    | data d => cases d <;> simp [hu, hg, fetchUrl, asking, unparsedReport, ExitWithMsg]

/-- C10: the cached list is used, with the single effect of announcing it and with cfg
unchanged, when the sub flag is false, the url flag is empty and the cached list is not
empty, and exactly then no fetch occurs; in every other case GetSub is called with the
url flag when it is not empty (else the stored or typed address), and when a non-nil
result arrives the parser is called on it, the entries it could not read are printed,
and the stored node list becomes the list the parser returned. -/
theorem getNodes_spec {P K : Type} (x : Ext P K) (w : World P K) (cfg : Config P K) :
    (useCache w cfg →
      getNodes x w cfg =
        ([Effect.print "使用缓存的订阅信息, 如需刷新请指定 -sub\n"], Step.next (cfg, cfg.Nodes))) ∧
    (useCache w cfg ↔
      ∀ e ∈ (getNodes x w cfg).1, (∀ url, e ≠ Effect.getSub url) ∧
        ∀ data, e ≠ Effect.parseNodes data) ∧
    (¬ useCache w cfg →
      Effect.getSub (fetchUrl w cfg) ∈ (getNodes x w cfg).1 ∧
      (w.flags.url ≠ "" → fetchUrl w cfg = w.flags.url) ∧
      ∀ data, w.getSub (fetchUrl w cfg) = SubResult.data (some data) →
        (getNodes x w cfg).2 =
          Step.next ({ cfg with SubUrl := fetchUrl w cfg, Nodes := (x.ParseNodes data).1 },
            (x.ParseNodes data).1) ∧
        Effect.parseNodes data ∈ (getNodes x w cfg).1 ∧
        ∀ entry ∈ (x.ParseNodes data).2, Effect.print (entry ++ "\n") ∈ (getNodes x w cfg).1) := by
  have fetched : ¬ useCache w cfg → Effect.getSub (fetchUrl w cfg) ∈ (getNodes x w cfg).1 := by
    intro h
    rw [getNodes_fresh x w cfg h]
    cases hg : w.getSub (fetchUrl w cfg) with
    | timeout => simp
    | data d => cases d <;> simp
  refine ⟨getNodes_cached x w cfg, ⟨?_, ?_⟩, ?_⟩
  · intro h e he
    rw [getNodes_cached x w cfg h] at he
    simp only [List.mem_singleton] at he
    subst he
    exact ⟨fun _ hc => Effect.noConfusion hc, fun _ hc => Effect.noConfusion hc⟩
  · intro h
    by_contra hn
    exact (h _ (fetched hn)).1 _ rfl
  · intro h
    refine ⟨fetched h, ?_, ?_⟩
    · intro hu
      simp [fetchUrl, hu]
    · intro data hd
      rw [getNodes_fresh x w cfg h, hd]
      refine ⟨rfl, by simp, ?_⟩
      intro entry he
      have hne : (x.ParseNodes data).2 ≠ [] := fun hnil => by rw [hnil] at he; simp at he
      simp only [unparsedReport, List.mem_append, List.mem_cons]
      right; right; right
      have hl : ((x.ParseNodes data).2.length != 0) = true := by
        simp [hne]
      rw [if_pos hl]
      exact List.mem_cons_of_mem _ (List.mem_map.mpr ⟨entry, he, rfl⟩)

/-- C10 at a run with a url flag: the stored address is replaced, the fetch uses the
flag, the node list is the one the parser returned and the unread entry is printed. -/
theorem getNodes_spec_witness :
    ¬ useCache refreshWorld (sampleConfig [ssNode]) ∧
    fetchUrl refreshWorld (sampleConfig [ssNode]) = "http://new" ∧
    Effect.getSub "http://new" ∈ (getNodes parsingExt refreshWorld (sampleConfig [ssNode])).1 ∧
    (getNodes parsingExt refreshWorld (sampleConfig [ssNode])).2 =
      Step.next ({ sampleConfig [ssNode] with SubUrl := "http://new", Nodes := [vmessNode] },
        [vmessNode]) ∧
    Effect.print "foo://bar\n" ∈ (getNodes parsingExt refreshWorld (sampleConfig [ssNode])).1 := by
  have hn : ¬ useCache refreshWorld (sampleConfig [ssNode]) := by
    intro h
    exact absurd h.2.1 (by decide)
  have hu : fetchUrl refreshWorld (sampleConfig [ssNode]) = "http://new" := rfl
  obtain ⟨hf, _, hd⟩ := (getNodes_spec parsingExt refreshWorld (sampleConfig [ssNode])).2.2 hn
  obtain ⟨h1, _, h3⟩ := hd ["vmess://x", "foo://bar"] rfl
  refine ⟨hn, hu, ?_, ?_, ?_⟩
  · rw [hu] at hf; exact hf
  · rw [h1]; rfl
  · exact h3 "foo://bar" (List.mem_singleton.mpr rfl)

/-! ## No file is written and no command is run before a node is selected -/

theorem quiet_append {P K : Type} {a b : List (Effect P K)} (ha : quiet a) (hb : quiet b) :
    quiet (a ++ b) := by
  intro e he
  rcases List.mem_append.mp he with h | h
  · exact ha e h
  · exact hb e h

theorem quiet_nil {P K : Type} : quiet ([] : List (Effect P K)) := by
  intro e he
  simp at he

theorem quiet_cons {P K : Type} {a : Effect P K} {t : List (Effect P K)}
    (h1 : a.isWrite = false) (h2 : a.isExec = false) (ht : quiet t) : quiet (a :: t) := by
  intro e he
  rcases List.mem_cons.mp he with h | h
  · subst h; exact ⟨h1, h2⟩
  · exact ht e h

theorem asking_quiet {P K : Type} (w : World P K) (cfg : Config P K) :
    quiet (asking w cfg) := by
  unfold asking
  split
  · exact quiet_cons (by rfl) (by rfl) (quiet_cons (by rfl) (by rfl)
      (quiet_cons (by rfl) (by rfl) quiet_nil))
  · exact quiet_cons (by rfl) (by rfl) (quiet_cons (by rfl) (by rfl) quiet_nil)

theorem unparsedReport_quiet {P K : Type} (failed : List String) :
    quiet (unparsedReport failed : List (Effect P K)) := by
  intro e he
  unfold unparsedReport at he
  split at he
  · rcases List.mem_cons.mp he with h | h
    · subst h; exact ⟨rfl, rfl⟩
    · obtain ⟨s, _, hs⟩ := List.mem_map.mp h
      subst hs; exact ⟨rfl, rfl⟩
  · simp at he

theorem getNodes_quiet {P K : Type} (x : Ext P K) (w : World P K) (cfg : Config P K) :
    quiet (getNodes x w cfg).1 := by
  by_cases h : useCache w cfg
  · rw [getNodes_cached x w cfg h]
    exact quiet_cons (by rfl) (by rfl) quiet_nil
  · rw [getNodes_fresh x w cfg h]
    cases hg : w.getSub (fetchUrl w cfg) with
    | timeout =>
      exact quiet_append (asking_quiet w cfg)
        (quiet_cons (by rfl) (by rfl) (quiet_cons (by rfl) (by rfl) quiet_nil))
    | data d =>
      cases d with
      | none =>
        exact quiet_append (asking_quiet w cfg)
          (quiet_cons (by rfl) (by rfl) (quiet_cons (by rfl) (by rfl) quiet_nil))
      | some data =>
        exact quiet_append (asking_quiet w cfg)
          (quiet_cons (by rfl) (by rfl) (quiet_cons (by rfl) (by rfl) (unparsedReport_quiet _)))

theorem probe_quiet {P K : Type} (x : Ext P K) (ping sort : Bool) (nodes : Nodes P) :
    quiet (probe x ping sort nodes).1 := by
  intro e he
  unfold probe at he
  cases ping <;> cases sort <;> simp at he
  · rcases he with h | h <;> subst h <;> exact ⟨rfl, rfl⟩
  · rcases he with h | h | h <;> subst h <;> exact ⟨rfl, rfl⟩

theorem selectNode_quiet {P K : Type} (nodes : Nodes P) (input : Nat → Option Int) :
    ∀ (fuel k : Nat) (t : List (Effect P K)) (s : Step (Node P)),
      selectNode nodes input fuel k = some (t, s) → quiet t := by
  intro fuel
  induction fuel with
  | zero => intro k t s h; simp [selectNode] at h
  | succ f ih =>
    intro k t s h
    by_cases hin : inRange nodes (entered input k)
    · obtain ⟨node, _, hs⟩ := selectNode_accept (K := K) nodes input f k hin
      rw [hs] at h
      simp only [Option.some.injEq, Prod.mk.injEq] at h
      rw [← h.1]
      intro e he
      simp only [accepted, List.mem_cons, List.mem_singleton, List.not_mem_nil, or_false] at he
      rcases he with h1 | h1 | h1 <;> subst h1 <;> exact ⟨rfl, rfl⟩
    · rw [selectNode_reject nodes input f k hin] at h
      cases hr : selectNode (K := K) nodes input f (k + 1) with
      | none => simp [hr] at h
      | some r =>
        simp only [hr, Option.map_some', Option.some.injEq, Prod.mk.injEq] at h
        rw [← h.1]
        intro e he
        simp only [List.mem_cons] at he
        rcases he with h1 | h1 | h1 | h1
        · subst h1; exact ⟨rfl, rfl⟩
        · subst h1; exact ⟨rfl, rfl⟩
        · subst h1; exact ⟨rfl, rfl⟩
        · exact ih (k + 1) r.1 r.2 hr e h1

theorem startup_quiet {P K : Type} (w : World P K) : quiet (startup w) := by
  unfold startup
  apply quiet_append
  · split
    · exact quiet_nil
    · exact quiet_cons (by rfl) (by rfl) quiet_nil
  · split
    · exact quiet_cons (by rfl) (by rfl) quiet_nil
    · exact quiet_nil

theorem prelude_quiet {P K : Type} (x : Ext P K) (w : World P K) (fuel : Nat)
    (t : List (Effect P K)) (s : Step (Config P K × Node P))
    (h : prelude x w fuel = some (t, s)) : quiet t := by
  have hq := getNodes_quiet x w w.readConfig
  unfold prelude at h
  rcases hg : getNodes x w w.readConfig with ⟨t1, s1⟩
  rw [hg] at hq h
  cases s1 with
  | next a =>
    obtain ⟨cfg, nodes⟩ := a
    simp only at h
    have hp := probe_quiet (K := K) x (effectiveFlags w.flags).ping (effectiveFlags w.flags).sort nodes
    have front : quiet (startup w ++ t1 ++
        (probe x (effectiveFlags w.flags).ping (effectiveFlags w.flags).sort nodes).1 ++
        [Effect.printAsTable
          (probe (K := K) x (effectiveFlags w.flags).ping (effectiveFlags w.flags).sort nodes).2]) :=
      quiet_append (quiet_append (quiet_append (startup_quiet w) hq) hp)
        (quiet_cons (by rfl) (by rfl) quiet_nil)
    cases hsel : selectNode (K := K)
        (probe (K := K) x (effectiveFlags w.flags).ping (effectiveFlags w.flags).sort nodes).2
        w.input fuel 0 with
    | none => rw [hsel] at h; simp at h
    | some r =>
      obtain ⟨t3, s3⟩ := r
      have hs := selectNode_quiet _ _ _ _ _ _ hsel
      rw [hsel] at h
      cases s3 <;> simp only [Option.some.injEq, Prod.mk.injEq] at h <;>
        (rw [← h.1]; exact quiet_append front hs)
  | exited code =>
    simp only [Option.some.injEq, Prod.mk.injEq] at h
    rw [← h.1]; exact quiet_append (startup_quiet w) hq
  | returned =>
    simp only [Option.some.injEq, Prod.mk.injEq] at h
    rw [← h.1]; exact quiet_append (startup_quiet w) hq
  | crashed =>
    simp only [Option.some.injEq, Prod.mk.injEq] at h
    rw [← h.1]; exact quiet_append (startup_quiet w) hq

theorem main_of_prelude {P K : Type} (x : Ext P K) (w : World P K) (fuel : Nat)
    (pre : List (Effect P K)) (cfg : Config P K) (node : Node P)
    (hv : w.flags.version = false)
    (hpre : prelude x w fuel = some (pre, Step.next (cfg, node))) :
    main x w fuel =
      some (pre ++ (configure x w (effectiveFlags w.flags) cfg node).1,
            (configure x w (effectiveFlags w.flags) cfg node).2) := by
  simp [main, hv, hpre]

theorem configure_next {P K : Type} (x : Ext P K) (w : World P K) (flags : Flags)
    (cfg : Config P K) (node : Node P) (t : List (Effect P K))
    (p : String × OutboundSetting × StreamSetting)
    (h : dispatch x w node = (t, Step.next p)) :
    configure x w flags cfg node =
      match w.marshalSettingErr with
      | some err => (t ++ [Effect.exitWithMsg err 1], Outcome.exited 1)
      | none => (t ++ (persist w (finalConfig x flags cfg p)).1,
                 (persist w (finalConfig x flags cfg p)).2) := by
  unfold configure
  rw [synthesize_next x w cfg node t p h]
  cases w.marshalSettingErr <;> rfl

theorem configure_exited {P K : Type} (x : Ext P K) (w : World P K) (flags : Flags)
    (cfg : Config P K) (node : Node P) (t : List (Effect P K)) (code : Int)
    (h : dispatch x w node = (t, Step.exited code)) :
    configure x w flags cfg node = (t, Outcome.exited code) := by
  simp [configure, synthesize, h]

theorem configure_returned {P K : Type} (x : Ext P K) (w : World P K) (flags : Flags)
    (cfg : Config P K) (node : Node P) (t : List (Effect P K))
    (h : dispatch x w node = (t, Step.returned)) :
    configure x w flags cfg node = (t, Outcome.returned) := by
  simp [configure, synthesize, h]

/-! ## Traces of the stages after the selection -/

theorem quiet_class {P K : Type} {t : List (Effect P K)} (h : quiet t) :
    ∀ e ∈ t, e.isRelay = false ∧ e.isEngine = false ∧ e.isCache = false := by
  intro e he
  obtain ⟨h1, h2⟩ := h e he
  cases e <;> simp_all [Effect.isWrite, Effect.isExec, Effect.isRelay, Effect.isEngine,
    Effect.isCache]

theorem append_split {α : Type} (e : α) :
    ∀ (A B l r : List α), l ++ e :: r = A ++ B → e ∉ A →
      ∃ m, l = A ++ m ∧ B = m ++ e :: r := by
  intro A
  induction A with
  | nil => intro B l r h _; exact ⟨l, rfl, by simpa using h.symm⟩
  | cons a A ih =>
    intro B l r h hne
    cases l with
    | nil =>
      simp only [List.nil_append, List.cons_append, List.cons.injEq] at h
      exact absurd (by rw [h.1]; exact List.mem_cons_self _ _) hne
    | cons b l =>
      simp only [List.cons_append, List.cons.injEq] at h
      obtain ⟨m, h1, h2⟩ := ih B l r h.2 (fun hm => hne (List.mem_cons_of_mem _ hm))
      exact ⟨m, by rw [h.1, h1]; rfl, h2⟩

theorem restart_ne : restartTrojan ≠ restartV2ray := by decide

theorem dispatch_class {P K : Type} (x : Ext P K) (w : World P K) (node : Node P) :
    ∀ e ∈ (dispatch x w node).1, e.isEngine = false ∧ e.isCache = false ∧
      (node.Protocol ≠ trojanProtocol → e.isRelay = false) := by
  by_cases h1 : node.Protocol = vmessProtocol
  · rw [dispatch_vmess x w node h1]; simp
  by_cases h2 : node.Protocol = ssProtocol
  · rw [dispatch_ss x w node h2]; simp
  by_cases h3 : node.Protocol = trojanProtocol
  · rw [dispatch_trojan x w node h3]
    have hr := restart_ne
    cases w.marshalTrojanErr <;> cases w.writeTrojanErr <;> cases w.restartTrojanErr <;>
      simp [Effect.isEngine, Effect.isCache, h3, hr]
  · rw [dispatch_other x w node h1 h2 h3]
    simp [Effect.isEngine, Effect.isCache, Effect.isRelay]

theorem persist_class {P K : Type} (w : World P K) (cfg : Config P K) :
    ∀ e ∈ (persist w cfg).1, e.isRelay = false := by
  have hr : restartV2ray ≠ restartTrojan := fun h => restart_ne h.symm
  unfold persist
  cases w.marshalCfgErr <;> cases w.writeV2subErr <;> cases w.marshalV2rayErr <;>
    cases w.writeV2rayErr <;> cases w.restartV2rayErr <;> simp [Effect.isRelay, hr]

/-! ## Runs -/

theorem sample_prelude (node : Node Nat) :
    prelude sampleExt (sampleWorld [node]) 1 =
      some (samplePrelude node, Step.next (sampleConfig [node], node)) := by
  rfl

/-- C4: when the selected node has a protocol other than vmess, shadowsocks and trojan,
the synthesizer fails with the single effect ExitWithMsg of the text unexpected protocol
followed by the protocol, with code 1; the run ends there with status 1; and no effect
of the run writes a file or runs a command. -/
theorem unsupported_protocol {P K : Type} (x : Ext P K) (w : World P K) (fuel : Nat)
    (pre : List (Effect P K)) (cfg : Config P K) (node : Node P)
    (hv : w.flags.version = false)
    (hpre : prelude x w fuel = some (pre, Step.next (cfg, node)))
    (h1 : node.Protocol ≠ vmessProtocol) (h2 : node.Protocol ≠ ssProtocol)
    (h3 : node.Protocol ≠ trojanProtocol) :
    synthesize x w cfg node =
      ([Effect.exitWithMsg ("unexpected protocol: " ++ node.Protocol) 1], Step.exited 1) ∧
    main x w fuel =
      some (pre ++ [Effect.exitWithMsg ("unexpected protocol: " ++ node.Protocol) 1],
        Outcome.exited 1) ∧
    (Outcome.exited 1).status = 1 ∧
    ∀ e ∈ pre ++ [Effect.exitWithMsg ("unexpected protocol: " ++ node.Protocol) 1],
      e.isWrite = false ∧ e.isExec = false := by
  have hd := dispatch_other x w node h1 h2 h3
  refine ⟨by simp [synthesize, hd], ?_, rfl, ?_⟩
  · rw [main_of_prelude x w fuel pre cfg node hv hpre,
      configure_exited x w _ cfg node _ 1 hd]
  · exact quiet_append (prelude_quiet x w fuel pre _ hpre)
      (quiet_cons (by rfl) (by rfl) quiet_nil)

/-- C4 at a node of protocol foo, picked from a cache that holds only this node. -/
theorem unsupported_protocol_witness :
    (sampleWorld [fooNode]).flags.version = false ∧
    prelude sampleExt (sampleWorld [fooNode]) 1 =
      some (samplePrelude fooNode, Step.next (sampleConfig [fooNode], fooNode)) ∧
    fooNode.Protocol ≠ vmessProtocol ∧ fooNode.Protocol ≠ ssProtocol ∧
    fooNode.Protocol ≠ trojanProtocol ∧
    main sampleExt (sampleWorld [fooNode]) 1 =
      some (samplePrelude fooNode ++ [Effect.exitWithMsg "unexpected protocol: foo" 1],
        Outcome.exited 1) :=
  ⟨rfl, sample_prelude fooNode, by decide, by decide, by decide,
    (unsupported_protocol sampleExt (sampleWorld [fooNode]) 1 (samplePrelude fooNode)
      (sampleConfig [fooNode]) fooNode rfl (sample_prelude fooNode)
      (by decide) (by decide) (by decide)).2.1⟩

theorem exec_not_mem_quiet {P K : Type} {t : List (Effect P K)} (h : quiet t)
    (cmd : List String) : Effect.exec cmd ∉ t := by
  intro hm
  have := (h _ hm).2
  simp [Effect.isExec] at this

/-- C3: in a run that selects a trojan node, every restart of the v2ray service is
preceded by the write of the relay config to the trojan config file and, after it,
by the restart of the trojan service, and it happens only when that restart returned
no error; in a run that selects a vmess or shadowsocks node no effect writes a relay
config or restarts the trojan service. -/
theorem relay_before_engine {P K : Type} (x : Ext P K) (w : World P K) (fuel : Nat)
    (pre : List (Effect P K)) (cfg : Config P K) (node : Node P)
    (hv : w.flags.version = false)
    (hpre : prelude x w fuel = some (pre, Step.next (cfg, node))) :
    ∃ trace out, main x w fuel = some (trace, out) ∧
      (node.Protocol = trojanProtocol →
        ∀ l r, trace = l ++ Effect.exec restartV2ray :: r →
          w.restartTrojanErr = none ∧
          ∃ l1 l2 l3 rc, l = l1 ++ Effect.writeFile trojanConfig (FileData.trojan rc) ::
            (l2 ++ Effect.exec restartTrojan :: l3)) ∧
      (node.Protocol = vmessProtocol ∨ node.Protocol = ssProtocol →
        ∀ e ∈ trace, e.isRelay = false) := by
  have hq := prelude_quiet x w fuel pre _ hpre
  refine ⟨_, _, main_of_prelude x w fuel pre cfg node hv hpre, ?_, ?_⟩
  · intro ht l r hl
    have hd := dispatch_trojan x w node ht
    have stop : Effect.exec restartV2ray ∉ (configure x w (effectiveFlags w.flags) cfg node).1 →
        False := by
      intro hne
      have hm : Effect.exec restartV2ray ∈
          pre ++ (configure x w (effectiveFlags w.flags) cfg node).1 := by rw [hl]; simp
      rcases List.mem_append.mp hm with h | h
      · exact exec_not_mem_quiet hq _ h
      · exact hne h
    have hr := restart_ne
    cases hm : w.marshalTrojanErr with
    | some err =>
      rw [hm] at hd
      exact (stop (by rw [configure_exited x w _ cfg node _ 1 hd]; simp)).elim
    | none =>
      cases hw : w.writeTrojanErr with
      | some err =>
        rw [hm, hw] at hd
        exact (stop (by rw [configure_returned x w _ cfg node _ hd]; simp)).elim
      | none =>
        cases hrs : w.restartTrojanErr with
        | some err =>
          rw [hm, hw, hrs] at hd
          exact (stop (by rw [configure_returned x w _ cfg node _ hd]; simp [hr.symm])).elim
        | none =>
          rw [hm, hw, hrs] at hd
          refine ⟨rfl, ?_⟩
          have hc := configure_next x w (effectiveFlags w.flags) cfg node _ _ hd
          have shape : ∃ rest, (configure x w (effectiveFlags w.flags) cfg node).1 =
              [Effect.writeFile trojanConfig (FileData.trojan (relayConfig x node)),
               Effect.print "重启 trojan 服务...\n", Effect.exec restartTrojan,
               Effect.print "trojan 启动完成\n"] ++ rest := by
            rw [hc]
            cases w.marshalSettingErr with
            | some err => exact ⟨_, rfl⟩
            | none => exact ⟨_, rfl⟩
          obtain ⟨rest, hrest⟩ := shape
          rw [hrest, ← List.append_assoc] at hl
          have hnot : Effect.exec restartV2ray ∉ pre ++
              [Effect.writeFile trojanConfig (FileData.trojan (relayConfig x node)),
               Effect.print "重启 trojan 服务...\n", Effect.exec restartTrojan,
               Effect.print "trojan 启动完成\n"] := by
            intro hm2
            rcases List.mem_append.mp hm2 with h | h
            · exact exec_not_mem_quiet hq _ h
            · simp [hr.symm] at h
          obtain ⟨m, h1, _⟩ := append_split _ _ _ _ _ hl.symm hnot
          exact ⟨pre, [Effect.print "重启 trojan 服务...\n"], Effect.print "trojan 启动完成\n" :: m,
            relayConfig x node, by rw [h1]; simp⟩
  · intro hp e he
    have hne : node.Protocol ≠ trojanProtocol := by
      rcases hp with h | h <;> rw [h] <;> decide
    have hdc := dispatch_class x w node
    rcases List.mem_append.mp he with h | h
    · exact (quiet_class hq e h).1
    · rcases hd : dispatch x w node with ⟨t, st⟩
      rw [hd] at hdc
      cases st with
      | next p =>
        rw [configure_next x w _ cfg node t p hd] at h
        cases hms : w.marshalSettingErr with
        | some err =>
          rw [hms] at h
          rcases List.mem_append.mp h with h' | h'
          · exact (hdc e h').2.2 hne
          · simp only [List.mem_singleton] at h'
            subst h'; rfl
        | none =>
          rw [hms] at h
          rcases List.mem_append.mp h with h' | h'
          · exact (hdc e h').2.2 hne
          · exact persist_class w _ e h'
      | exited code =>
        rw [configure_exited x w _ cfg node t code hd] at h
        exact (hdc e h).2.2 hne
      | returned =>
        rw [configure_returned x w _ cfg node t hd] at h
        exact (hdc e h).2.2 hne
      | crashed =>
        have : (configure x w (effectiveFlags w.flags) cfg node).1 = t := by
          simp [configure, synthesize, hd]
        rw [this] at h
        exact (hdc e h).2.2 hne

/-- C3 at the sample trojan node, picked from the cache, every call succeeding. -/
theorem relay_before_engine_witness :
    (sampleWorld [trojanNode]).flags.version = false ∧
    prelude sampleExt (sampleWorld [trojanNode]) 1 =
      some (samplePrelude trojanNode, Step.next (sampleConfig [trojanNode], trojanNode)) ∧
    ∃ trace out, main sampleExt (sampleWorld [trojanNode]) 1 = some (trace, out) ∧
      (trojanNode.Protocol = trojanProtocol →
        ∀ l r, trace = l ++ Effect.exec restartV2ray :: r →
          (sampleWorld [trojanNode]).restartTrojanErr = none ∧
          ∃ l1 l2 l3 rc, l = l1 ++ Effect.writeFile trojanConfig (FileData.trojan rc) ::
            (l2 ++ Effect.exec restartTrojan :: l3)) ∧
      (trojanNode.Protocol = vmessProtocol ∨ trojanNode.Protocol = ssProtocol →
        ∀ e ∈ trace, e.isRelay = false) :=
  ⟨rfl, sample_prelude trojanNode,
    relay_before_engine sampleExt (sampleWorld [trojanNode]) 1 (samplePrelude trojanNode)
      (sampleConfig [trojanNode]) trojanNode rfl (sample_prelude trojanNode)⟩

theorem configure_cases {P K : Type} (x : Ext P K) (w : World P K) (flags : Flags)
    (cfg : Config P K) (node : Node P) :
    ∃ t, (∀ e ∈ t, e.isEngine = false ∧ e.isCache = false) ∧
      ((∃ out, configure x w flags cfg node = (t, out)) ∨
       (∃ c, configure x w flags cfg node = (t ++ (persist w c).1, (persist w c).2))) := by
  have hdc := dispatch_class x w node
  rcases hd : dispatch x w node with ⟨t, st⟩
  rw [hd] at hdc
  have ht : ∀ e ∈ t, e.isEngine = false ∧ e.isCache = false :=
    fun e he => ⟨(hdc e he).1, (hdc e he).2.1⟩
  cases st with
  | next p =>
    rw [configure_next x w flags cfg node t p hd]
    cases w.marshalSettingErr with
    | some err =>
      refine ⟨t ++ [Effect.exitWithMsg err 1], ?_, Or.inl ⟨_, rfl⟩⟩
      intro e he
      rcases List.mem_append.mp he with h | h
      · exact ht e h
      · simp only [List.mem_singleton] at h
        subst h; exact ⟨rfl, rfl⟩
    | none => exact ⟨t, ht, Or.inr ⟨_, rfl⟩⟩
  | exited code => exact ⟨t, ht, Or.inl ⟨_, configure_exited x w flags cfg node t code hd⟩⟩
  | returned => exact ⟨t, ht, Or.inl ⟨_, configure_returned x w flags cfg node t hd⟩⟩
  | crashed => exact ⟨t, ht, Or.inl ⟨Outcome.crashed, by simp [configure, synthesize, hd]⟩⟩

theorem persist_cache_fails {P K : Type} (w : World P K) (cfg : Config P K) (err : String)
    (h : w.writeV2subErr = some err) :
    persist w cfg = ([Effect.exitWithMsg (w.marshalCfgErr.getD "") 1], Outcome.exited 1) ∧
      w.marshalCfgErr ≠ none ∨
    persist w cfg = ([Effect.writeFile v2subConfig (FileData.config cfg),
      Effect.print ("写入 v2sub 配置文件错误: " ++ err ++ "\n")], Outcome.returned) ∧
      w.marshalCfgErr = none := by
  unfold persist
  cases w.marshalCfgErr with
  | some e => left; simp
  | none => right; simp [h]

theorem no_cache_write {P K : Type} (t l r : List (Effect P K)) (p : String) (c : Config P K)
    (h : ∀ e ∈ t, e.isCache = false) :
    t ≠ l ++ Effect.writeFile p (FileData.config c) :: r := by
  intro ht
  have := h (Effect.writeFile p (FileData.config c)) (by rw [ht]; simp)
  simp [Effect.isCache] at this

/-- C8: in a run that selects a trojan node, when the write of the relay config fails
the run ends with that write and its diagnostic, and when the restart of the relay
fails the run ends with the write, the restart and its diagnostic; nothing before the
selection writes a file or runs a command, so in both cases the v2sub and v2ray
configs are not written and v2ray is not restarted.  In a run where the write of the
v2sub config fails, no effect writes the v2ray config or restarts v2ray, and the
failed write is followed by its diagnostic alone, after which main returns.  No
effect undoes an earlier write. -/
theorem fatal_short_circuit {P K : Type} (x : Ext P K) (w : World P K) (fuel : Nat)
    (pre : List (Effect P K)) (cfg : Config P K) (node : Node P)
    (hv : w.flags.version = false)
    (hpre : prelude x w fuel = some (pre, Step.next (cfg, node))) :
    (∀ e ∈ pre, e.isWrite = false ∧ e.isExec = false) ∧
    (node.Protocol = trojanProtocol → w.marshalTrojanErr = none →
      ∀ err, w.writeTrojanErr = some err →
        main x w fuel =
          some (pre ++ [Effect.writeFile trojanConfig (FileData.trojan (relayConfig x node)),
              Effect.print ("写入 trojan 配置文件错误: " ++ err ++ "\n")], Outcome.returned)) ∧
    (node.Protocol = trojanProtocol → w.marshalTrojanErr = none → w.writeTrojanErr = none →
      ∀ err, w.restartTrojanErr = some err →
        main x w fuel =
          some (pre ++ [Effect.writeFile trojanConfig (FileData.trojan (relayConfig x node)),
              Effect.print "重启 trojan 服务...\n", Effect.exec restartTrojan,
              Effect.print ("重启失败: " ++ err ++ "\n")], Outcome.returned)) ∧
    (∀ err, w.writeV2subErr = some err →
      ∃ trace out, main x w fuel = some (trace, out) ∧
        (∀ e ∈ trace, e.isEngine = false) ∧
        ∀ l c r, trace = l ++ Effect.writeFile v2subConfig (FileData.config c) :: r →
          r = [Effect.print ("写入 v2sub 配置文件错误: " ++ err ++ "\n")] ∧
          out = Outcome.returned) := by
  have hq := prelude_quiet x w fuel pre _ hpre
  have hmain := main_of_prelude x w fuel pre cfg node hv hpre
  refine ⟨hq, ?_, ?_, ?_⟩
  · intro ht hm err hw
    have hd := dispatch_trojan x w node ht
    rw [hm, hw] at hd
    rw [hmain, configure_returned x w _ cfg node _ hd]
  · intro ht hm hw err hr
    have hd := dispatch_trojan x w node ht
    rw [hm, hw, hr] at hd
    rw [hmain, configure_returned x w _ cfg node _ hd]
  · intro err hw
    refine ⟨_, _, hmain, ?_⟩
    obtain ⟨t, ht, hc⟩ := configure_cases x w (effectiveFlags w.flags) cfg node
    have hpt : ∀ e ∈ pre ++ t, e.isEngine = false ∧ e.isCache = false := by
      intro e he
      rcases List.mem_append.mp he with h | h
      · exact ⟨(quiet_class hq e h).2.1, (quiet_class hq e h).2.2⟩
      · exact ht e h
    rcases hc with ⟨out, hc⟩ | ⟨c, hc⟩
    · rw [hc]
      refine ⟨fun e he => (hpt e he).1, ?_⟩
      intro l c r hl
      exact absurd hl (no_cache_write _ l r _ c (fun e he => (hpt e he).2))
    · rw [hc]
      rcases persist_cache_fails w c err hw with ⟨hp, _⟩ | ⟨hp, _⟩
      · rw [hp]
        have hall : ∀ e ∈ pre ++ (t ++ [Effect.exitWithMsg (w.marshalCfgErr.getD "") 1]),
            e.isEngine = false ∧ e.isCache = false := by
          intro e he
          rw [← List.append_assoc] at he
          rcases List.mem_append.mp he with h | h
          · exact hpt e h
          · simp only [List.mem_singleton] at h
            subst h; exact ⟨rfl, rfl⟩
        refine ⟨fun e he => (hall e he).1, ?_⟩
        intro l c' r hl
        exact absurd hl (no_cache_write _ l r _ c' (fun e he => (hall e he).2))
      · rw [hp]
        refine ⟨?_, ?_⟩
        · intro e he
          rw [← List.append_assoc] at he
          rcases List.mem_append.mp he with h | h
          · exact (hpt e h).1
          · simp only [List.mem_cons, List.mem_singleton, List.not_mem_nil, or_false] at h
            rcases h with h | h <;> subst h <;> rfl
        · intro l c' r hl
          rw [← List.append_assoc] at hl
          have hnot : Effect.writeFile v2subConfig (FileData.config c') ∉ pre ++ t := by
            intro hm
            have := (hpt _ hm).2
            simp [Effect.isCache] at this
          obtain ⟨m, _, h2⟩ := append_split _ _ _ _ _ hl.symm hnot
          refine ⟨?_, rfl⟩
          match m, h2 with
          | [], h2 =>
            simp only [List.nil_append, List.cons.injEq] at h2
            exact h2.2.symm
          | [a], h2 =>
            simp only [List.cons_append, List.nil_append, List.cons.injEq] at h2
            exact absurd h2.2.1 (by simp)
          | a :: b :: m, h2 =>
            simp only [List.cons_append, List.cons.injEq] at h2
            exact absurd h2.2.2 (by simp)

/-- C8 at the sample trojan node when the write of the relay config fails. -/
theorem fatal_short_circuit_witness :
    relayWriteFails.flags.version = false ∧
    prelude sampleExt relayWriteFails 1 =
      some (samplePrelude trojanNode, Step.next (sampleConfig [trojanNode], trojanNode)) ∧
    main sampleExt relayWriteFails 1 =
      some (samplePrelude trojanNode ++
        [Effect.writeFile trojanConfig (FileData.trojan (relayConfig sampleExt trojanNode)),
         Effect.print ("写入 trojan 配置文件错误: " ++ "disk full" ++ "\n")], Outcome.returned) :=
  ⟨rfl, rfl,
    (fatal_short_circuit sampleExt relayWriteFails 1 (samplePrelude trojanNode)
      (sampleConfig [trojanNode]) trojanNode rfl rfl).2.1 rfl rfl "disk full" rfl⟩

theorem main_of_exit {P K : Type} (x : Ext P K) (w : World P K) (fuel : Nat)
    (t : List (Effect P K)) (code : Int) (hv : w.flags.version = false)
    (hg : getNodes x w w.readConfig = (t, Step.exited code)) :
    main x w fuel = some (startup w ++ t, Outcome.exited code) := by
  have hp : prelude x w fuel = some (startup w ++ t, Step.exited code) := by
    simp [prelude, hg]
  simp [main, hv, hp]

theorem persist_ok {P K : Type} (w : World P K) (cfg : Config P K)
    (h1 : w.marshalCfgErr = none) :
    (∀ err, w.writeV2subErr = some err →
      persist w cfg = ([Effect.writeFile v2subConfig (FileData.config cfg),
        Effect.print ("写入 v2sub 配置文件错误: " ++ err ++ "\n")], Outcome.returned)) ∧
    (w.writeV2subErr = none → w.marshalV2rayErr = none → ∀ err, w.writeV2rayErr = some err →
      persist w cfg = ([Effect.writeFile v2subConfig (FileData.config cfg),
        Effect.writeFile w.flags.v2rayConfig (FileData.v2ray cfg.V2rayConfig),
        Effect.print ("写入 v2ray 配置文件错误: " ++ err ++ "\n")], Outcome.returned)) ∧
    (w.writeV2subErr = none → w.marshalV2rayErr = none → w.writeV2rayErr = none →
      ∀ err, w.restartV2rayErr = some err →
      persist w cfg = ([Effect.writeFile v2subConfig (FileData.config cfg),
        Effect.writeFile w.flags.v2rayConfig (FileData.v2ray cfg.V2rayConfig),
        Effect.print "重启 v2ray 服务...\n", Effect.exec restartV2ray,
        Effect.print ("重启失败: " ++ err ++ "\n")], Outcome.returned)) := by
  refine ⟨?_, ?_, ?_⟩
  · intro err h2
    simp [persist, h1, h2]
  · intro h2 h3 err h4
    simp [persist, h1, h2, h3, h4]
  · intro h2 h3 h4 err h5
    simp [persist, h1, h2, h3, h4, h5]

/-- C7 (amended): every fatal path ends the run with its diagnostic as the last effect.
The fetch timeout and the nil decoder result end it through ExitWithMsg with their
text and code 0, so with exit status 0; the unsupported protocol ends it through
ExitWithMsg with code 1, a nonzero status; a failed write of the relay, v2sub or v2ray
config and a failed restart of the relay or of v2ray print their text and return from
main, so that the exit status of the process is 0. -/
theorem fatal_paths {P K : Type} (x : Ext P K) (w : World P K) (fuel : Nat)
    (hv : w.flags.version = false) :
    (¬ useCache w w.readConfig → w.getSub (fetchUrl w w.readConfig) = SubResult.timeout →
      ∃ t, main x w fuel = some (t ++ [Effect.exitWithMsg
        (waitingForSub ++ " 后仍未获取到订阅信息, 请检查订阅地址和网络状况") 0],
        Outcome.exited 0) ∧ (Outcome.exited 0).status = 0) ∧
    (¬ useCache w w.readConfig → w.getSub (fetchUrl w w.readConfig) = SubResult.data none →
      ∃ t, main x w fuel = some (t ++ [Effect.exitWithMsg
        "base64 解码错误, 请核实订阅编码" 0], Outcome.exited 0) ∧
        (Outcome.exited 0).status = 0) ∧
    (∀ pre cfg node, prelude x w fuel = some (pre, Step.next (cfg, node)) →
      (node.Protocol ≠ vmessProtocol → node.Protocol ≠ ssProtocol →
        node.Protocol ≠ trojanProtocol →
        main x w fuel = some (pre ++ [Effect.exitWithMsg
          ("unexpected protocol: " ++ node.Protocol) 1], Outcome.exited 1) ∧
        (Outcome.exited 1).status ≠ 0) ∧
      (node.Protocol = trojanProtocol → w.marshalTrojanErr = none →
        (∀ err, w.writeTrojanErr = some err →
          ∃ t out, main x w fuel = some (t ++ [Effect.print
            ("写入 trojan 配置文件错误: " ++ err ++ "\n")], out) ∧ out.status = 0)) ∧
      (node.Protocol = trojanProtocol → w.marshalTrojanErr = none → w.writeTrojanErr = none →
        (∀ err, w.restartTrojanErr = some err →
          ∃ t out, main x w fuel = some (t ++ [Effect.print ("重启失败: " ++ err ++ "\n")], out) ∧
            out.status = 0)) ∧
      (∀ d p, dispatch x w node = (d, Step.next p) → w.marshalSettingErr = none →
        w.marshalCfgErr = none →
        (∀ err, w.writeV2subErr = some err →
          ∃ t out, main x w fuel = some (t ++ [Effect.print
            ("写入 v2sub 配置文件错误: " ++ err ++ "\n")], out) ∧ out.status = 0) ∧
        (w.writeV2subErr = none → w.marshalV2rayErr = none →
          ∀ err, w.writeV2rayErr = some err →
          ∃ t out, main x w fuel = some (t ++ [Effect.print
            ("写入 v2ray 配置文件错误: " ++ err ++ "\n")], out) ∧ out.status = 0) ∧
        (w.writeV2subErr = none → w.marshalV2rayErr = none → w.writeV2rayErr = none →
          ∀ err, w.restartV2rayErr = some err →
          ∃ t out, main x w fuel = some (t ++ [Effect.print ("重启失败: " ++ err ++ "\n")], out) ∧
            out.status = 0))) := by
  refine ⟨?_, ?_, ?_⟩
  · intro hc hg
    have h := getNodes_fresh x w w.readConfig hc
    rw [hg] at h
    refine ⟨startup w ++ (asking w w.readConfig ++ [Effect.getSub (fetchUrl w w.readConfig)]),
      ?_, rfl⟩
    rw [main_of_exit x w fuel _ 0 hv h]
    simp
  · intro hc hg
    have h := getNodes_fresh x w w.readConfig hc
    rw [hg] at h
    refine ⟨startup w ++ (asking w w.readConfig ++ [Effect.getSub (fetchUrl w w.readConfig)]),
      ?_, rfl⟩
    rw [main_of_exit x w fuel _ 0 hv h]
    simp
  · intro pre cfg node hpre
    have hmain := main_of_prelude x w fuel pre cfg node hv hpre
    refine ⟨?_, ?_, ?_, ?_⟩
    · intro h1 h2 h3
      refine ⟨?_, by decide⟩
      rw [hmain, configure_exited x w _ cfg node _ 1 (dispatch_other x w node h1 h2 h3)]
    · intro ht hm err hw
      have hd := dispatch_trojan x w node ht
      rw [hm, hw] at hd
      refine ⟨pre ++ [Effect.writeFile trojanConfig (FileData.trojan (relayConfig x node))],
        Outcome.returned, ?_, rfl⟩
      rw [hmain, configure_returned x w _ cfg node _ hd]
      simp
    · intro ht hm hw err hr
      have hd := dispatch_trojan x w node ht
      rw [hm, hw, hr] at hd
      refine ⟨pre ++ [Effect.writeFile trojanConfig (FileData.trojan (relayConfig x node)),
        Effect.print "重启 trojan 服务...\n", Effect.exec restartTrojan],
        Outcome.returned, ?_, rfl⟩
      rw [hmain, configure_returned x w _ cfg node _ hd]
      simp
    · intro d p hd hms hmc
      have hc := configure_next x w (effectiveFlags w.flags) cfg node d p hd
      rw [hms] at hc
      simp only at hc
      obtain ⟨p1, p2, p3⟩ := persist_ok w (finalConfig x (effectiveFlags w.flags) cfg p) hmc
      refine ⟨?_, ?_, ?_⟩
      · intro err h2
        rw [p1 err h2] at hc
        exact ⟨pre ++ d ++ [Effect.writeFile v2subConfig
          (FileData.config (finalConfig x (effectiveFlags w.flags) cfg p))], Outcome.returned,
          by rw [hmain, hc]; simp, rfl⟩
      · intro h2 h3 err h4
        rw [p2 h2 h3 err h4] at hc
        exact ⟨pre ++ d ++ [Effect.writeFile v2subConfig
          (FileData.config (finalConfig x (effectiveFlags w.flags) cfg p)),
          Effect.writeFile w.flags.v2rayConfig
            (FileData.v2ray (finalConfig x (effectiveFlags w.flags) cfg p).V2rayConfig)],
          Outcome.returned, by rw [hmain, hc]; simp, rfl⟩
      · intro h2 h3 h4 err h5
        rw [p3 h2 h3 h4 err h5] at hc
        exact ⟨pre ++ d ++ [Effect.writeFile v2subConfig
          (FileData.config (finalConfig x (effectiveFlags w.flags) cfg p)),
          Effect.writeFile w.flags.v2rayConfig
            (FileData.v2ray (finalConfig x (effectiveFlags w.flags) cfg p).V2rayConfig),
          Effect.print "重启 v2ray 服务...\n", Effect.exec restartV2ray],
          Outcome.returned, by rw [hmain, hc]; simp, rfl⟩

/-- C7 (amended) at the sample world where the write of the v2sub config fails. -/
theorem fatal_paths_witness :
    cacheWriteFails.flags.version = false ∧
    prelude sampleExt cacheWriteFails 1 =
      some (samplePrelude vmessNode, Step.next (sampleConfig [vmessNode], vmessNode)) ∧
    ∃ t out, main sampleExt cacheWriteFails 1 = some (t ++ [Effect.print
      ("写入 v2sub 配置文件错误: " ++ "disk full" ++ "\n")], out) ∧ out.status = 0 :=
  ⟨rfl, rfl,
    ((((fatal_paths sampleExt cacheWriteFails 1 rfl).2.2 (samplePrelude vmessNode)
      (sampleConfig [vmessNode]) vmessNode rfl).2.2.2 _ _
      (dispatch_vmess sampleExt cacheWriteFails vmessNode rfl) rfl rfl).1) "disk full" rfl⟩

/-- C7 as stated fails: in the sample world where the write of the v2sub config fails,
the run ends with the diagnostic of that write as its last effect and main returns,
so the exit status is 0. -/
theorem failed_write_exits_zero :
    cacheWriteFails.writeV2subErr = some "disk full" ∧
    (main sampleExt cacheWriteFails 1).map (fun r => (r.1.getLast?, r.2, r.2.status)) =
      some (some (Effect.print "写入 v2sub 配置文件错误: disk full\n"), Outcome.returned, 0) :=
  ⟨rfl, rfl⟩

end V2sub
